import Mathlib

/-!
# Verification development for `terraform-provider-apsarastack`

A shallow embedding of the provider-configuration flow (`provider.go`), the
schema validators (`validators.go`) and the diff suppressors
(`diff_suppress_funcs.go`).

Conventions of the embedding.

* A Go `string` is a Lean `String`: the strings that reach this code come from
  HCL configuration, environment variables and decoded JSON, all of which are
  UTF-8 text.  The single place where the code slices a string at a byte
  offset (`sourceName[:64]`) is modelled on the UTF-8 bytes.
* A Go `int` is a Lean `Int`; the code does no arithmetic on it that could
  overflow, only comparisons.
* A run-time panic (failed type assertion, index out of range) is the
  `Except.error` of the outer `Except String`; an ordinary Go `error` result is
  a value of the function.
* The `*schema.ResourceData` that `providerConfigure` receives is the function
  its `d.Get` computes.  The plugin SDK fills in the zero value of the declared
  type only for a key found in the schema, so a key that the schema of
  `Provider()` does not declare reads as the nil interface, and each type
  assertion `d.Get(key).(T)` is a possible panic.
* Library and sibling-package code that is not part of the three files is
  taken as a parameter (STS SDK, the `connectivity` package, the file system,
  `go-homedir`) or, for the pure functions of Go's `net`, `strconv` and
  `strings` packages, transcribed.
-/

namespace Apsarastack

/-! ## Dynamic values -/

/-- A Go `interface{}` value as the validators receive it from the schema
layer. -/
inductive GoValue where
  | nil
  | int (v : Int)
  | string (s : String)
  | bool (b : Bool)
  | float64 (q : ℚ)

/-- The errors the validators append to `es` / `errors`, one constructor per
`fmt.Errorf` call site. -/
inductive ValidationError where
  /-- Message `expected type of %s to be int`. -/
  | expectedInt (k : String)
  /-- Message `expected %s to be in the range (%d - %d), got %d`. -/
  | outOfRange (k : String) (min max v : Int)
  /-- Message `%q must contain a valid CIDR, got error parsing: %s`. -/
  | invalidCIDR (k : String) (err : String)
  /-- Message `%q must contain a valid network CIDR, expected %q, got %q`. -/
  | notNetworkCIDR (k : String) (expected : String) (got : String)
  /-- Message `%q must contain a network CIDR which mark between 16 and 29`. -/
  | markNotBetween16And29 (k : String)
  deriving DecidableEq, Repr

/-! ## `validators.go`: `intBetween` -/

/-- The validator `intBetween(min, max)` applied to `(i, k)`; the result is the
pair `(s, es)` of warnings and errors. -/
def intBetween (min max : Int) (i : GoValue) (k : String) :
    List String × List ValidationError :=
  match i with
  | GoValue.int v =>
    if v < min ∨ v > max then
      ([], [ValidationError.outOfRange k min max v])
    else
      ([], [])
  | _ => ([], [ValidationError.expectedInt k])

/-! ## `diff_suppress_funcs.go` -/

/-- The part of `*schema.ResourceData` the diff suppressors read: every
attribute they touch is declared `TypeString`, so `d.Get(key).(string)` is a
string, the empty string when the attribute is unset. -/
structure ResourceData where
  attrs : String → String

/-- The read `d.Get(key).(string)`. -/
def ResourceData.Get (d : ResourceData) (key : String) : String :=
  d.attrs key

/-- The read `d.GetOk(key)`: the value, and whether it has been set to a
non-zero value. -/
def ResourceData.GetOk (d : ResourceData) (key : String) : String × Bool :=
  (d.attrs key, decide (d.attrs key ≠ ""))

/-- Go `vpcTypeResourceDiffSuppressFunc`.  `Trim` is the package helper of that
name, declared in a file outside the three embedded here. -/
def vpcTypeResourceDiffSuppressFunc (Trim : String → String)
    (_k _old _new : String) (d : ResourceData) : Bool :=
  if (Trim (d.Get "vswitch_id")).utf8ByteSize > 0 then
    false
  else
    true

/-- Go `kmsDiffSuppressFunc`. -/
def kmsDiffSuppressFunc (_k _old _new : String) (d : ResourceData) : Bool :=
  let (v, ok) := d.GetOk "password"
  if ok && v != "" then
    true
  else
    let (v, ok) := d.GetOk "account_password"
    if ok && v != "" then
      true
    else
      false

/-- Go `ecsSecurityGroupRulePortRangeDiffSuppressFunc`.  `AllPortRange` is the
package constant of that name, declared outside the three embedded files. -/
def ecsSecurityGroupRulePortRangeDiffSuppressFunc (AllPortRange : String)
    (_k _old new : String) (d : ResourceData) : Bool :=
  let protocol := d.Get "ip_protocol"
  if protocol = "tcp" ∨ protocol = "udp" then
    if new = AllPortRange then
      true
    else
      false
  else if new = AllPortRange then
    false
  else
    true

/-! ## Go's `strconv` and `strings` packages

Transcriptions of the library functions the validators call.  Strings are
scanned as lists of characters; every test the scanners make is against an
ASCII byte, so on UTF-8 text scanning characters and scanning bytes agree. -/

/-- Go `strings.Split(s, sep)` for a separator of one ASCII character, on the
characters of `s`. -/
def splitChars (sep : Char) : List Char → List (List Char)
  | [] => [[]]
  | c :: cs =>
    if c = sep then
      [] :: splitChars sep cs
    else
      match splitChars sep cs with
      | [] => [[c]]
      | p :: ps => (c :: p) :: ps

/-- Go `strings.Split(s, "/")`. -/
def stringsSplitSlash (s : String) : List String :=
  (splitChars '/' s.toList).map String.mk

/-- The error kinds of `strconv.NumError`. -/
inductive NumErr where
  | ErrSyntax
  | ErrRange
  deriving DecidableEq, Repr

/-- The digit loop of `strconv.ParseUint(s, 10, 64)`: `n` is the value so far;
the result is the value returned and the error, if any. -/
def parseUintLoop : List Char → Nat → Nat × Option NumErr
  | [], n => (n, none)
  | c :: cs, n =>
    if '0' ≤ c ∧ c ≤ '9' then
      let d := c.toNat - '0'.toNat
      if n ≥ (2 ^ 64 - 1) / 10 + 1 then
        (2 ^ 64 - 1, some NumErr.ErrRange)
      else
        let n1 := n * 10 + d
        if n1 > 2 ^ 64 - 1 then
          (2 ^ 64 - 1, some NumErr.ErrRange)
        else
          parseUintLoop cs n1
    else
      (0, some NumErr.ErrSyntax)

/-- Go `strconv.ParseUint(s, 10, 64)`. -/
def ParseUint (s : List Char) : Nat × Option NumErr :=
  match s with
  | [] => (0, some NumErr.ErrSyntax)
  | _ => parseUintLoop s 0

/-- Go `strconv.ParseInt(s, 10, 0)` on a 64-bit platform. -/
def ParseInt (s : List Char) : Int × Option NumErr :=
  match s with
  | [] => (0, some NumErr.ErrSyntax)
  | c :: cs =>
    let neg := decide (c = '-')
    let body := if c = '+' ∨ c = '-' then cs else c :: cs
    match ParseUint body with
    | (_, some NumErr.ErrSyntax) => (0, some NumErr.ErrSyntax)
    | (un, _) =>
      if !neg && un ≥ 2 ^ 63 then
        ((2 : Int) ^ 63 - 1, some NumErr.ErrRange)
      else if neg && un > 2 ^ 63 then
        (-(2 : Int) ^ 63, some NumErr.ErrRange)
      else if neg then
        (-(un : Int), none)
      else
        ((un : Int), none)

/-- The digit loop of the fast path of `strconv.Atoi`; `none` is the syntax
error. -/
def atoiFastLoop : List Char → Nat → Option Nat
  | [], n => some n
  | c :: cs, n =>
    if '0' ≤ c ∧ c ≤ '9' then
      atoiFastLoop cs (n * 10 + (c.toNat - '0'.toNat))
    else
      none

/-- Go `strconv.Atoi(s)` on a 64-bit platform: the `int` returned and the
error, if any. -/
def Atoi (s : String) : Int × Option NumErr :=
  let sLen := s.utf8ByteSize
  if 0 < sLen ∧ sLen < 19 then
    match s.toList with
    | [] => (0, some NumErr.ErrSyntax)
    | c :: cs =>
      let body := if c = '-' ∨ c = '+' then cs else c :: cs
      if body.length < 1 then
        (0, some NumErr.ErrSyntax)
      else
        match atoiFastLoop body 0 with
        | none => (0, some NumErr.ErrSyntax)
        | some n => if c = '-' then (-(n : Int), none) else ((n : Int), none)
  else
    ParseInt s.toList

/-! ## Go's `net` package: addresses, masks and `ParseCIDR`

Byte slices are lists of naturals below 256; the nil slice is the empty list.
The transcription follows the package as it stood in the Go releases the
provider was written against (textual parsing in `net/ip.go`, without the
later rejection of leading zeros in dotted-quad components). -/

/-- A Go `net.IP`. -/
abbrev IP := List Nat

/-- A Go `net.IPMask`. -/
abbrev IPMask := List Nat

/-- A Go `net.IPNet`. -/
structure IPNet where
  IP : IP
  Mask : IPMask
  deriving DecidableEq, Repr

/-- The constant `IPv4len`. -/
def IPv4len : Nat := 4

/-- The constant `IPv6len`. -/
def IPv6len : Nat := 16

/-- The constant `big` of `net/parse.go`. -/
def big : Nat := 0xFFFFFF

/-- The prefix `v4InV6Prefix`. -/
def v4InV6Prefix : List Nat := [0, 0, 0, 0, 0, 0, 0, 0, 0, 0, 0xff, 0xff]

/-- The loop of `dtoi`: `n` is the number so far and `i` the count of
characters consumed; the result is `(n, i, ok)`. -/
def dtoiLoop : List Char → Nat → Nat → Nat × Nat × Bool
  | [], n, i => (n, i, true)
  | c :: cs, n, i =>
    if '0' ≤ c ∧ c ≤ '9' then
      let n1 := n * 10 + (c.toNat - '0'.toNat)
      if n1 ≥ big then
        (big, i, false)
      else
        dtoiLoop cs n1 (i + 1)
    else
      (n, i, true)

/-- Go `dtoi`: decimal to integer; returns number, characters consumed,
success. -/
def dtoi (s : List Char) : Nat × Nat × Bool :=
  match dtoiLoop s 0 0 with
  | (n, i, false) => (n, i, false)
  | (n, i, true) => if i = 0 then (0, 0, false) else (n, i, true)

/-- The value of a hexadecimal digit, if the character is one. -/
def hexVal (c : Char) : Option Nat :=
  if '0' ≤ c ∧ c ≤ '9' then some (c.toNat - '0'.toNat)
  else if 'a' ≤ c ∧ c ≤ 'f' then some (c.toNat - 'a'.toNat + 10)
  else if 'A' ≤ c ∧ c ≤ 'F' then some (c.toNat - 'A'.toNat + 10)
  else none

/-- The loop of `xtoi`. -/
def xtoiLoop : List Char → Nat → Nat → Nat × Nat × Bool
  | [], n, i => (n, i, true)
  | c :: cs, n, i =>
    match hexVal c with
    | some d =>
      let n1 := n * 16 + d
      if n1 ≥ big then
        (0, i, false)
      else
        xtoiLoop cs n1 (i + 1)
    | none => (n, i, true)

/-- Go `xtoi`: hexadecimal to integer; returns number, characters consumed,
success. -/
def xtoi (s : List Char) : Nat × Nat × Bool :=
  match xtoiLoop s 0 0 with
  | (n, i, false) => (n, i, false)
  | (n, i, true) => if i = 0 then (0, i, false) else (n, i, true)

/-- The loop of `parseIPv4` with `k` octets still to read; `first` tells the
iteration `i = 0`, which expects no dot.  Returns the octets and the rest of
the text. -/
def parseIPv4Octets : Nat → Bool → List Char → Option (List Nat × List Char)
  | 0, _, s => some ([], s)
  | k + 1, first, s =>
    if s.isEmpty then
      none
    else
      let afterDot : Option (List Char) :=
        if first then some s
        else
          match s with
          | '.' :: t => some t
          | _ => none
      match afterDot with
      | none => none
      | some s1 =>
        match dtoi s1 with
        | (n, c, ok) =>
          if !ok || n > 0xFF then
            none
          else
            match parseIPv4Octets k false (s1.drop c) with
            | none => none
            | some (p, rest) => some (n :: p, rest)

/-- Go `parseIPv4`: the 16-byte form of a dotted-quad address, `none` for
nil. -/
def parseIPv4 (s : List Char) : Option IP :=
  match parseIPv4Octets 4 true s with
  | some (p, []) => some (v4InV6Prefix ++ p)
  | _ => none

/-- The main loop of `parseIPv6` with `r` 16-bit groups of room left, so that
`i = 16 - 2 * r` is the length of `acc`, the bytes written so far.  Returns
the bytes written, the unread text and the position of the ellipsis. -/
def parseIPv6Loop : Nat → List Char → List Nat → Option Nat →
    Option (List Nat × List Char × Option Nat)
  | 0, s, acc, ellipsis => some (acc, s, ellipsis)
  | r + 1, s, acc, ellipsis =>
    match xtoi s with
    | (n, c, ok) =>
      if !ok || n > 0xFFFF then
        none
      else if (s.drop c).head? = some '.' then
        let i := acc.length
        if ellipsis.isNone && i != IPv6len - IPv4len then
          none
        else if i + IPv4len > IPv6len then
          none
        else
          match parseIPv4 s with
          | none => none
          | some ip4 => some (acc ++ ip4.drop 12, [], ellipsis)
      else
        let acc1 := acc ++ [n / 256 % 256, n % 256]
        match s.drop c with
        | [] => some (acc1, [], ellipsis)
        | ':' :: s2 =>
          match s2 with
          | [] => none
          | ':' :: s3 =>
            if ellipsis.isSome then
              none
            else if s3.isEmpty then
              some (acc1, [], some acc1.length)
            else
              parseIPv6Loop r s3 acc1 (some acc1.length)
          | _ => parseIPv6Loop r s2 acc1 ellipsis
        | _ => none

/-- The tail of `parseIPv6` after the main loop. -/
def parseIPv6Finish (acc : List Nat) (s : List Char) (ellipsis : Option Nat) :
    Option IP :=
  if !s.isEmpty then
    none
  else if acc.length < IPv6len then
    match ellipsis with
    | none => none
    | some e =>
      some (acc.take e ++ List.replicate (IPv6len - acc.length) 0 ++ acc.drop e)
  else if ellipsis.isSome then
    none
  else
    some acc

/-- Go `parseIPv6` (no zone allowed). -/
def parseIPv6 (s : List Char) : Option IP :=
  match s with
  | [':', ':'] => some (List.replicate IPv6len 0)
  | ':' :: ':' :: s1 =>
    match parseIPv6Loop 8 s1 [] (some 0) with
    | none => none
    | some (acc, rest, e) => parseIPv6Finish acc rest e
  | _ =>
    match parseIPv6Loop 8 s [] none with
    | none => none
    | some (acc, rest, e) => parseIPv6Finish acc rest e

/-- Go `CIDRMask(ones, bits)`; the empty list is nil. -/
def cidrMaskBytes : Nat → Nat → List Nat
  | 0, _ => []
  | l + 1, n =>
    if n ≥ 8 then
      0xff :: cidrMaskBytes l (n - 8)
    else
      (0xff - 0xff / 2 ^ n) :: cidrMaskBytes l 0

/-- Go `CIDRMask(ones, bits)` for non-negative `ones`; the empty list is
nil. -/
def CIDRMask (ones bits : Nat) : IPMask :=
  if bits ≠ 8 * IPv4len ∧ bits ≠ 8 * IPv6len then
    []
  else if ones > bits then
    []
  else
    cidrMaskBytes (bits / 8) ones

/-- Go `allFF`. -/
def allFF (b : List Nat) : Bool :=
  b.all (fun c => c == 0xff)

/-- Go `isZeros`. -/
def isZeros (p : List Nat) : Bool :=
  p.all (fun c => c == 0)

/-- Go `IP.To4`; the empty list is nil. -/
def IP.To4 (ip : IP) : IP :=
  if ip.length = IPv4len then
    ip
  else if ip.length = IPv6len ∧ isZeros (ip.take 10) ∧ ip.getD 10 0 = 0xff ∧
      ip.getD 11 0 = 0xff then
    (ip.drop 12).take 4
  else
    []

/-- Go `IP.Mask`; the empty list is nil. -/
def IP.Mask (ip : IP) (mask : IPMask) : IP :=
  let mask1 :=
    if mask.length = IPv6len ∧ ip.length = IPv4len ∧ allFF (mask.take 12) then
      mask.drop 12
    else
      mask
  let ip1 :=
    if mask1.length = IPv4len ∧ ip.length = IPv6len ∧ ip.take 12 = v4InV6Prefix then
      ip.drop 12
    else
      ip
  if ip1.length ≠ mask1.length then
    []
  else
    List.zipWith (fun a b => Nat.land a b) ip1 mask1

/-- The count of leading one bits of a byte, and what is left of the byte
after shifting them out (`for v&0x80 != 0 { n++; v <<= 1 }`). -/
def leadingOnes : Nat → Nat → Nat × Nat
  | 0, v => (0, v)
  | f + 1, v =>
    if Nat.land v 0x80 ≠ 0 then
      let r := leadingOnes f (v * 2 % 256)
      (r.1 + 1, r.2)
    else
      (0, v)

/-- The loop of `simpleMaskLength`; `none` stands for the result `-1`. -/
def simpleMaskLengthLoop : IPMask → Option Nat
  | [] => some 0
  | v :: rest =>
    if v = 0xff then
      match simpleMaskLengthLoop rest with
      | none => none
      | some n => some (n + 8)
    else
      let r := leadingOnes 8 v
      if r.2 ≠ 0 then
        none
      else if rest.all (fun c => c == 0) then
        some r.1
      else
        none

/-- Go `simpleMaskLength`: the number of leading ones of a canonical mask,
`-1` otherwise. -/
def simpleMaskLength (mask : IPMask) : Int :=
  match simpleMaskLengthLoop mask with
  | none => -1
  | some n => (n : Int)

/-- Go `networkNumberAndMask`; `none` is the pair of nils. -/
def networkNumberAndMask (n : IPNet) : Option (IP × IPMask) :=
  let ip4 := n.IP.To4
  let ipOpt : Option IP :=
    if ip4.isEmpty then
      if n.IP.length ≠ IPv6len then none else some n.IP
    else
      some ip4
  match ipOpt with
  | none => none
  | some ip =>
    if n.Mask.length = IPv4len then
      if ip.length ≠ IPv4len then none else some (ip, n.Mask)
    else if n.Mask.length = IPv6len then
      if ip.length = IPv4len then some (ip, n.Mask.drop 12) else some (ip, n.Mask)
    else
      none

/-- Go `uitoa`: the decimal text of an unsigned integer. -/
def uitoa (n : Nat) : String :=
  String.mk (Nat.toDigits 10 n)

/-- Go `hexString`: two lower-case hexadecimal digits per byte. -/
def hexString (b : List Nat) : String :=
  String.mk (b.flatMap (fun c => [Nat.digitChar (c / 16 % 16), Nat.digitChar (c % 16)]))

/-- Go `appendHex`: hexadecimal digits of a 16-bit group without leading
zeros. -/
def appendHex (i : Nat) : List Char :=
  Nat.toDigits 16 i

/-- The inner loop of the zero-run search of `IP.String`:
`for j < IPv6len && p[j] == 0 && p[j+1] == 0 { j += 2 }`. -/
def zeroRunEnd (p : List Nat) : Nat → Nat → Nat
  | 0, j => j
  | f + 1, j =>
    if j < IPv6len ∧ p.getD j 0 = 0 ∧ p.getD (j + 1) 0 = 0 then
      zeroRunEnd p f (j + 2)
    else
      j

/-- The outer loop of the zero-run search of `IP.String`, from index `i` with
the best run `(e0, e1)` so far. -/
def longestZeroRun (p : List Nat) : Nat → Nat → Int → Int → Int × Int
  | 0, _, e0, e1 => (e0, e1)
  | f + 1, i, e0, e1 =>
    if i < IPv6len then
      let j := zeroRunEnd p 8 i
      if j > i ∧ (j : Int) - (i : Int) > e1 - e0 then
        longestZeroRun p f (j + 2) (i : Int) (j : Int)
      else
        longestZeroRun p f (i + 2) e0 e1
    else
      (e0, e1)

/-- The printing loop of `IP.String` from index `i`. -/
def printGroups (p : List Nat) (e0 e1 : Int) : Nat → Nat → List Char
  | 0, _ => []
  | f + 1, i =>
    if i < IPv6len then
      if (i : Int) = e0 then
        let i1 := e1.toNat
        if i1 ≥ IPv6len then
          [':', ':']
        else
          [':', ':'] ++ appendHex (p.getD i1 0 * 256 + p.getD (i1 + 1) 0) ++
            printGroups p e0 e1 f (i1 + 2)
      else
        (if i > 0 then [':'] else []) ++
          appendHex (p.getD i 0 * 256 + p.getD (i + 1) 0) ++
          printGroups p e0 e1 f (i + 2)
    else
      []

/-- Go `IP.String`. -/
def IP.String (ip : IP) : String :=
  if ip.length = 0 then
    "<nil>"
  else
    let p4 := IP.To4 ip
    if p4.length = IPv4len then
      uitoa (p4.getD 0 0) ++ "." ++ uitoa (p4.getD 1 0) ++ "." ++
        uitoa (p4.getD 2 0) ++ "." ++ uitoa (p4.getD 3 0)
    else if ip.length ≠ IPv6len then
      "?" ++ hexString ip
    else
      let run := longestZeroRun ip 8 0 (-1) (-1)
      let run := if run.2 - run.1 ≤ 2 then ((-1 : Int), (-1 : Int)) else run
      String.mk (printGroups ip run.1 run.2 8 0)

/-- Go `IPMask.String`. -/
def IPMask.String (m : IPMask) : String :=
  if m.length = 0 then "<nil>" else hexString m

/-- Go `(*IPNet).String`. -/
def IPNet.String (n : IPNet) : String :=
  match networkNumberAndMask n with
  | none => "<nil>"
  | some (nn, m) =>
    let l := simpleMaskLength m
    if l = -1 then
      IP.String nn ++ "/" ++ IPMask.String m
    else
      IP.String nn ++ "/" ++ uitoa l.toNat

/-- Go `bytealg.IndexByteString(s, c)`; `none` stands for `-1`. -/
def IndexByteString : List Char → Char → Option Nat
  | [], _ => none
  | x :: xs, c =>
    if x = c then
      some 0
    else
      match IndexByteString xs c with
      | none => none
      | some i => some (i + 1)

/-- The text of the `*ParseError` that `ParseCIDR` returns. -/
def cidrParseError (s : String) : String :=
  "invalid CIDR address: " ++ s

/-- Go `net.ParseCIDR`: the address and the network, `none` when the error
result is non-nil (always `ParseError{Type: "CIDR address", Text: s}`). -/
def ParseCIDR (s : String) : Option (IP × IPNet) :=
  match IndexByteString s.toList '/' with
  | none => none
  | some i =>
    let addr := s.toList.take i
    let mask := s.toList.drop (i + 1)
    let v4 := parseIPv4 addr
    let iplen := if v4.isSome then IPv4len else IPv6len
    let ip := if v4.isSome then v4 else parseIPv6 addr
    match dtoi mask with
    | (n, j, ok) =>
      match ip with
      | none => none
      | some ip =>
        if !ok || j != mask.length || n > 8 * iplen then
          none
        else
          let m := CIDRMask n (8 * iplen)
          some (ip, { IP := IP.Mask ip m, Mask := m })

/-! ## `validators.go`: the CIDR validators -/

/-- Go `validateSwitchCIDRNetworkAddress`.  The test `ipnet == nil` of the second
`if` is never true after a successful `ParseCIDR` and is left out. -/
def validateSwitchCIDRNetworkAddress (v : GoValue) (k : String) :
    Except String (List String × List ValidationError) :=
  match v with
  | GoValue.string value =>
    match ParseCIDR value with
    | none =>
      Except.ok ([], [ValidationError.invalidCIDR k (cidrParseError value)])
    | some (_, ipnet) =>
      if value ≠ ipnet.String then
        Except.ok ([], [ValidationError.notNetworkCIDR k ipnet.String value])
      else
        match (stringsSplitSlash ipnet.String).get? 1 with
        | none => Except.error "index out of range [1]"
        | some part =>
          let mark := (Atoi part).1
          if mark < 16 ∨ mark > 29 then
            Except.ok ([], [ValidationError.markNotBetween16And29 k])
          else
            Except.ok ([], [])
  | _ => Except.error "interface conversion: interface {} is not string"

/-- Go `validateCIDRNetworkAddress`.  The test `ipnet == nil` is never true
after a successful `ParseCIDR` and is left out. -/
def validateCIDRNetworkAddress (v : GoValue) (k : String) :
    Except String (List String × List ValidationError) :=
  match v with
  | GoValue.string value =>
    match ParseCIDR value with
    | none =>
      Except.ok ([], [ValidationError.invalidCIDR k (cidrParseError value)])
    | some (_, ipnet) =>
      if value ≠ ipnet.String then
        Except.ok ([], [ValidationError.notNetworkCIDR k ipnet.String value])
      else
        Except.ok ([], [])
  | _ => Except.error "interface conversion: interface {} is not string"

/-! ## `provider.go`: data -/

/-- A Go `error` value. -/
structure GoError where
  msg : String
  deriving DecidableEq, Repr

/-- A JSON document as `encoding/json` decodes it into `interface{}`:
`null` is the nil interface, numbers are `float64` (every finite `float64` is
a rational), objects are `map[string]interface{}`. -/
inductive JVal where
  | null
  | bool (b : Bool)
  | number (q : ℚ)
  | string (s : String)
  | array (items : List JVal)
  | object (fields : List (String × JVal))

/-- A Go `map[string]interface{}` holding decoded JSON, as an association
list. -/
abbrev JObj := List (String × JVal)

/-- The map index expression `m[key]`: the nil interface when the key is
absent. -/
def mapIndex (m : JObj) (key : String) : JVal :=
  (m.lookup key).getD JVal.null

/-- Whether an `interface{}` value is the nil interface. -/
def JVal.isNil : JVal → Bool
  | JVal.null => true
  | _ => false

/-- The conversion `(int)(f)` of a `float64` on a 64-bit platform: truncation
toward zero; outside the range of `int` the result is the one amd64
produces. -/
def float64ToInt (q : ℚ) : Int :=
  let t := Int.tdiv q.num (q.den : Int)
  if -(2 : Int) ^ 63 ≤ t ∧ t < (2 : Int) ^ 63 then t else -(2 : Int) ^ 63

/-- A value that `d.Get` hands back for a provider attribute: the nil interface
for a key the provider schema does not declare, otherwise a value of the
declared type.  The elements of a `*schema.Set` of blocks are
`map[string]interface{}`, kept as association lists. -/
inductive AttrValue where
  | nil
  | string (s : String)
  | bool (b : Bool)
  | int (i : Int)
  | set (items : List (List (String × AttrValue)))

/-- The dynamic type of a value, as the panic of a failed type assertion
prints it. -/
def AttrValue.typeName : AttrValue → String
  | AttrValue.nil => "nil"
  | AttrValue.string _ => "string"
  | AttrValue.bool _ => "bool"
  | AttrValue.int _ => "int"
  | AttrValue.set _ => "*schema.Set"

/-- The panic of a failed type assertion `v.(T)`. -/
def conversionPanic (v : AttrValue) (want : String) : String :=
  "interface conversion: interface {} is " ++ v.typeName ++ ", not " ++ want

/-- The type assertion `v.(string)`. -/
def AttrValue.assertString (v : AttrValue) : Except String String :=
  match v with
  | AttrValue.string s => Except.ok s
  | _ => Except.error (conversionPanic v "string")

/-- The type assertion `v.(bool)`. -/
def AttrValue.assertBool (v : AttrValue) : Except String Bool :=
  match v with
  | AttrValue.bool b => Except.ok b
  | _ => Except.error (conversionPanic v "bool")

/-- The type assertion `v.(int)`. -/
def AttrValue.assertInt (v : AttrValue) : Except String Int :=
  match v with
  | AttrValue.int i => Except.ok i
  | _ => Except.error (conversionPanic v "int")

/-- The type assertion `v.(*schema.Set)` followed by `.List()`. -/
def AttrValue.assertSet (v : AttrValue) :
    Except String (List (List (String × AttrValue))) :=
  match v with
  | AttrValue.set items => Except.ok items
  | _ => Except.error (conversionPanic v "*schema.Set")

/-- Whether a value differs from the zero value of its type; the nil interface
does not. -/
def AttrValue.nonZero (v : AttrValue) : Bool :=
  match v with
  | AttrValue.nil => false
  | AttrValue.string s => s != ""
  | AttrValue.bool b => b
  | AttrValue.int i => i != 0
  | AttrValue.set items => !items.isEmpty

/-- The index expression `m[key]` on an element of a set: the nil interface
when the key is absent. -/
def mapField (m : List (String × AttrValue)) (key : String) : AttrValue :=
  (m.lookup key).getD AttrValue.nil

/-- The `*schema.ResourceData` handed to `providerConfigure`, as the function
that `d.Get` computes. -/
structure ProviderData where
  get : String → AttrValue

/-- The read `d.Get(key)`. -/
def ProviderData.Get (d : ProviderData) (key : String) : AttrValue :=
  d.get key

/-- The read `d.GetOk(key)`: the value, and whether the key has been set to a
non-zero value. -/
def ProviderData.GetOk (d : ProviderData) (key : String) : AttrValue × Bool :=
  (d.get key, (d.get key).nonZero)

/-- The value types the provider schema uses. -/
inductive ValueType where
  | TypeString
  | TypeBool
  deriving DecidableEq, Repr

/-- The `Schema` map of `Provider()`: the seven attributes it declares, with
their types. -/
def Provider : List (String × ValueType) :=
  [("access_key", ValueType.TypeString),
    ("secret_key", ValueType.TypeString),
    ("security_token", ValueType.TypeString),
    ("skip_region_validation", ValueType.TypeBool),
    ("insecure", ValueType.TypeBool),
    ("proxy", ValueType.TypeString),
    ("domain", ValueType.TypeString)]

/-- The `*schema.ResourceData` that the plugin SDK builds over a schema: a
declared attribute reads as a value of its type (`strings` and `bools` give
the configured value, the default or the zero value), and a key the schema
does not declare reads as the nil interface. -/
def schemaResourceData (schema : List (String × ValueType))
    (strings : String → String) (bools : String → Bool) : ProviderData :=
  { get := fun key =>
      match schema.lookup key with
      | none => AttrValue.nil
      | some ValueType.TypeString => AttrValue.string (strings key)
      | some ValueType.TypeBool => AttrValue.bool (bools key) }

/-- One element of the `assume_role` set, with the four fields the code reads
at the types it asserts. -/
structure AssumeRole where
  role_arn : String
  session_name : String
  policy : String
  session_expiration : Int

/-- The reads `assumeRole["role_arn"].(string)`, `["session_name"].(string)`,
`["policy"].(string)` and `["session_expiration"].(int)` of the `assume_role`
block, in the order of their first occurrence. -/
def decodeAssumeRole (m : List (String × AttrValue)) : Except String AssumeRole := do
  let role_arn ← (mapField m "role_arn").assertString
  let session_name ← (mapField m "session_name").assertString
  let policy ← (mapField m "policy").assertString
  let session_expiration ← (mapField m "session_expiration").assertInt
  Except.ok
    { role_arn := role_arn
      session_name := session_name
      policy := policy
      session_expiration := session_expiration }

/-- The fields of `connectivity.Config` that `providerConfigure` writes.
`ConfigurationSource` is kept as bytes, being the one field cut at a byte
offset. -/
structure Config where
  AccessKey : String := ""
  SecretKey : String := ""
  EcsRoleName : String := ""
  Region : String := ""
  RegionId : String := ""
  SkipRegionValidation : Bool := false
  ConfigurationSource : List UInt8 := []
  Protocol : String := ""
  Insecure : Bool := false
  Proxy : String := ""
  SecurityToken : String := ""
  RamRoleArn : String := ""
  RamRoleSessionName : String := ""
  RamRolePolicy : String := ""
  RamRoleSessionExpiration : Int := 0
  EcsEndpoint : String := ""
  StsEndpoint : String := ""
  OtsInstanceName : String := ""
  AccountId : String := ""
  deriving DecidableEq, Repr

/-- What `os.Stat` and `ioutil.ReadFile` followed by `json.Unmarshal` find at a
path. -/
inductive FileOutcome where
  /-- The path does not exist (`os.IsNotExist`). -/
  | notExist
  /-- The read fails with this error. -/
  | readError (err : GoError)
  /-- The file is read and `json.Unmarshal` fails with this error. -/
  | badJSON (err : GoError)
  /-- The file is read and decodes to this map. -/
  | decoded (config : JObj)

/-- The surroundings `getConfigFromProfile` and `providerConfigure` consult:
process environment, platform, `go-homedir` and the file system. -/
structure HostEnv where
  Getenv : String → String
  GOOS : String
  homedirExpand : String → Except GoError String
  file : String → FileOutcome

/-- The UTF-8 bytes of a string, which is what Go's `len` and slicing see. -/
def goBytes (s : String) : List UInt8 :=
  s.toList.flatMap String.utf8EncodeChar

/-- Go `unicode.IsSpace`. -/
def isSpace (c : Char) : Bool :=
  let n := c.toNat
  n == 0x09 || n == 0x0a || n == 0x0b || n == 0x0c || n == 0x0d || n == 0x20 ||
    n == 0x85 || n == 0xa0 || n == 0x1680 || (0x2000 ≤ n && n ≤ 0x200a) ||
    n == 0x2028 || n == 0x2029 || n == 0x202f || n == 0x205f || n == 0x3000

/-- Go `strings.TrimSpace`. -/
def stringsTrimSpace (s : String) : String :=
  String.mk ((s.toList.dropWhile isSpace).reverse.dropWhile isSpace).reverse

/-- Go `strings.Trim(s, cutset)`. -/
def stringsTrim (s cutset : String) : String :=
  String.mk
    ((s.toList.dropWhile (fun c => cutset.toList.contains c)).reverse.dropWhile
      (fun c => cutset.toList.contains c)).reverse

/-- A `uuid.UUID`: sixteen bytes. -/
structure UUID where
  bytes : List Nat
  size : bytes.length = 16
  range : ∀ b ∈ bytes, b < 256

/-- Go `hex.Encode`: two lower-case hexadecimal digits per byte. -/
def hexEncode (b : List Nat) : List Char :=
  b.flatMap (fun c => [Nat.digitChar (c / 16 % 16), Nat.digitChar (c % 16)])

/-- Go `UUID.String`: the form `xxxxxxxx-xxxx-xxxx-xxxx-xxxxxxxxxxxx`. -/
def UUID.String (u : UUID) : String :=
  String.mk
    (hexEncode (u.bytes.take 4) ++ ['-'] ++
      hexEncode ((u.bytes.drop 4).take 2) ++ ['-'] ++
      hexEncode ((u.bytes.drop 6).take 2) ++ ['-'] ++
      hexEncode ((u.bytes.drop 8).take 2) ++ ['-'] ++
      hexEncode (u.bytes.drop 10))

/-! ## `provider.go`: `getConfigFromProfile` -/

/-- The loop `for _, v := range config["profiles"].([]interface{})` of
`getConfigFromProfile`, with `acc` the value of `providerConfig` so far. -/
def selectProfile (current : String) : List JVal → JObj → Except String JObj
  | [], acc => Except.ok acc
  | JVal.object m :: rest, acc =>
    match mapIndex m "name" with
    | JVal.string name =>
      if current = name then selectProfile current rest m
      else selectProfile current rest acc
    | _ => selectProfile current rest acc
  | _ :: _, _ =>
    Except.error "interface conversion: interface {} is not map[string]interface {}"

/-- The second half of `getConfigFromProfile` (from `mode := ""` on), on the
loaded `providerConfig`. -/
def profileLookup (providerConfig : JObj) (ProfileKey : String) :
    Except String (Except GoError JVal) :=
  match providerConfig.lookup "mode" with
  | none => Except.ok (Except.ok JVal.null)
  | some (JVal.string mode) =>
    if (ProfileKey = "access_key_id" ∨ ProfileKey = "access_key_secret") ∧
        mode = "EcsRamRole" then
      Except.ok (Except.ok (JVal.string ""))
    else if ProfileKey = "ram_role_name" ∧ mode ≠ "EcsRamRole" then
      Except.ok (Except.ok (JVal.string ""))
    else if ProfileKey = "sts_token" ∧ mode ≠ "StsToken" then
      Except.ok (Except.ok (JVal.string ""))
    else if (ProfileKey = "ram_role_arn" ∨ ProfileKey = "ram_session_name") ∧
        mode ≠ "RamRoleArn" then
      Except.ok (Except.ok (JVal.string ""))
    else if ProfileKey = "expired_seconds" ∧ mode ≠ "RamRoleArn" then
      Except.ok (Except.ok (JVal.number 0))
    else
      Except.ok (Except.ok (mapIndex providerConfig ProfileKey))
  | some _ => Except.error "interface conversion: interface {} is not string"

/-- Go `getConfigFromProfile`.  The package variable `providerConfig` is
passed in and handed back (`none` is the nil map); the result is the pair
`(value, err)` as an `Except GoError`. -/
def getConfigFromProfile (env : HostEnv) (d : ProviderData) (ProfileKey : String)
    (providerConfig : Option JObj) :
    Except String (Except GoError JVal × Option JObj) :=
  match providerConfig with
  | some cfg =>
    match profileLookup cfg ProfileKey with
    | Except.error p => Except.error p
    | Except.ok r => Except.ok (r, some cfg)
  | none =>
    let (v, ok) := d.GetOk "profile"
    -- `!ok && v.(string) == ""`: the assertion is evaluated only when `ok` is false
    let noProfile : Except String Bool :=
      if !ok then
        match v.assertString with
        | Except.error p => Except.error p
        | Except.ok s => Except.ok (s == "")
      else
        Except.ok false
    match noProfile with
    | Except.error p => Except.error p
    | Except.ok true => Except.ok (Except.ok JVal.null, none)
    | Except.ok false =>
      match (d.Get "profile").assertString with
      | Except.error p => Except.error p
      | Except.ok current =>
        match (d.Get "shared_credentials_file").assertString with
        | Except.error p => Except.error p
        | Except.ok shared_credentials_file =>
          match env.homedirExpand shared_credentials_file with
          | Except.error err => Except.ok (Except.error err, none)
          | Except.ok expanded =>
            let profilePath :=
              if expanded = "" then
                if env.GOOS = "windows" then
                  env.Getenv "USERPROFILE" ++ "/.apsarastack/config.json"
                else
                  env.Getenv "HOME" ++ "/.apsarastack/config.json"
              else
                expanded
            match env.file profilePath with
            | FileOutcome.notExist =>
              match profileLookup [] ProfileKey with
              | Except.error p => Except.error p
              | Except.ok r => Except.ok (r, some [])
            | FileOutcome.readError err => Except.ok (Except.error err, some [])
            | FileOutcome.badJSON err => Except.ok (Except.error err, some [])
            | FileOutcome.decoded config =>
              match mapIndex config "profiles" with
              | JVal.array profiles =>
                match selectProfile current profiles [] with
                | Except.error p => Except.error p
                | Except.ok cfg =>
                  match profileLookup cfg ProfileKey with
                  | Except.error p => Except.error p
                  | Except.ok r => Except.ok (r, some cfg)
              | _ =>
                Except.error "interface conversion: interface {} is not []interface {}"

/-! ## `provider.go`: `getAssumeRoleAK` -/

/-- The fields of `sts.AssumeRoleRequest` that `getAssumeRoleAK` sets. -/
structure AssumeRoleRequest where
  RoleArn : String
  RoleSessionName : String
  DurationSeconds : Int
  Policy : String
  Scheme : String
  Domain : String

/-- The `Credentials` of an `sts.AssumeRoleResponse`. -/
structure Credentials where
  AccessKeyId : String
  AccessKeySecret : String
  SecurityToken : String

/-- The three entry points of the STS SDK that `getAssumeRoleAK` calls, over
the SDK's client type. -/
structure StsSDK (Client : Type) where
  NewClientWithAccessKey : String → String → String → Except GoError Client
  NewClientWithStsToken : String → String → String → String → Except GoError Client
  AssumeRole : Client → AssumeRoleRequest → Except GoError Credentials

/-- Go `getAssumeRoleAK`. -/
def getAssumeRoleAK {Client : Type} (sdk : StsSDK Client)
    (accessKey secretKey stsToken region roleArn sessionName policy : String)
    (sessionExpiration : Int) (stsEndpoint : String) :
    Except GoError (String × String × String) :=
  let request : AssumeRoleRequest :=
    { RoleArn := roleArn
      RoleSessionName := sessionName
      DurationSeconds := sessionExpiration
      Policy := policy
      Scheme := "https"
      Domain := stsEndpoint }
  let client :=
    if stsToken = "" then
      sdk.NewClientWithAccessKey region accessKey secretKey
    else
      sdk.NewClientWithStsToken region accessKey secretKey stsToken
  match client with
  | Except.error err => Except.error err
  | Except.ok client =>
    match sdk.AssumeRole client request with
    | Except.error err => Except.error err
    | Except.ok response =>
      Except.ok (response.AccessKeyId, response.AccessKeySecret, response.SecurityToken)

/-! ## `provider.go`: `providerConfigure` -/

/-- The closure `getProviderConfig` of `providerConfigure`. -/
def getProviderConfig (env : HostEnv) (d : ProviderData) (str key : String)
    (providerConfig : Option JObj) : Except String (String × Option JObj) :=
  if str = "" then
    match getConfigFromProfile env d key providerConfig with
    | Except.error p => Except.error p
    | Except.ok (Except.error _, pc) => Except.ok (str, pc)
    | Except.ok (Except.ok value, pc) =>
      if value.isNil then
        Except.ok (str, pc)
      else
        match value with
        | JVal.string s => Except.ok (s, pc)
        | _ => Except.error "interface conversion: interface {} is not string"
  else
    Except.ok (str, providerConfig)

/-- The statements of the `assume_role` block of `providerConfigure` after
`assumeRole := assumeRoleList[0]`, up to the `log.Printf`.  Each of the four
fields the block assigns is followed through the block's statements in order;
the other fields of `config` are left as they are. -/
def assumeRoleBlock (env : HostEnv) (assumeRole : AssumeRole) (config : Config) :
    Config :=
  let ramRoleArn :=
    if assumeRole.role_arn ≠ "" then assumeRole.role_arn else config.RamRoleArn
  let ramRoleSessionName :=
    if assumeRole.session_name ≠ "" then assumeRole.session_name
    else config.RamRoleSessionName
  let ramRoleSessionName :=
    if ramRoleSessionName = "" then "terraform" else ramRoleSessionName
  let ramRolePolicy := assumeRole.policy
  let ramRoleSessionExpiration :=
    if assumeRole.session_expiration = 0 then
      let v := env.Getenv "apsarastack_ASSUME_ROLE_SESSION_EXPIRATION"
      let fromEnv :=
        if v ≠ "" then
          match Atoi v with
          | (expiredSeconds, none) => expiredSeconds
          | (_, some _) => config.RamRoleSessionExpiration
        else config.RamRoleSessionExpiration
      if fromEnv = 0 then 3600 else fromEnv
    else
      assumeRole.session_expiration
  { config with
    RamRoleArn := ramRoleArn
    RamRoleSessionName := ramRoleSessionName
    RamRolePolicy := ramRolePolicy
    RamRoleSessionExpiration := ramRoleSessionExpiration }

/-- The `assume_role` block of `providerConfigure`, from
`assumeRoleList := d.Get("assume_role").(*schema.Set).List()` on. -/
def applyAssumeRole (env : HostEnv) (d : ProviderData) (config : Config) :
    Except String Config :=
  match (d.Get "assume_role").assertSet with
  | Except.error p => Except.error p
  | Except.ok assumeRoleList =>
    match assumeRoleList with
    | [m] =>
      match decodeAssumeRole m with
      | Except.error p => Except.error p
      | Except.ok assumeRole => Except.ok (assumeRoleBlock env assumeRole config)
    | _ => Except.ok config

/-- The statement `if err == nil && expiredSeconds != nil { ... }` of
`providerConfigure`, on the pair that `getConfigFromProfile` returned for
`expired_seconds`. -/
def applyExpiredSeconds (expiredSeconds : Except GoError JVal) (config : Config) :
    Except String Config :=
  match expiredSeconds with
  | Except.error _ => Except.ok config
  | Except.ok value =>
    if value.isNil then
      Except.ok config
    else
      match value with
      | JVal.number q =>
        Except.ok { config with RamRoleSessionExpiration := float64ToInt q }
      | _ => Except.error "interface conversion: interface {} is not float64"

/-- The first part of `providerConfigure`, up to and including the
`assume_role` block: the `config` built and the local `region`, with the
package variable `providerConfig` passed through.  Every `d.Get(key).(T)` is
made where the source makes it and panics when the value read is not a `T`.
`DEFAULT_REGION` is the package constant of that name. -/
def providerConfigureResolve (DEFAULT_REGION : String) (env : HostEnv)
    (d : ProviderData) (providerConfig : Option JObj) :
    Except String ((Config × String) × Option JObj) := do
  let access_key ← (d.Get "access_key").assertString
  let (accessKey, pc) ← getProviderConfig env d access_key "access_key_id" providerConfig
  let secret_key ← (d.Get "secret_key").assertString
  let (secretKey, pc) ← getProviderConfig env d secret_key "access_key_secret" pc
  let region ← (d.Get "region").assertString
  let (region, pc) ← getProviderConfig env d region "region_id" pc
  let region := if region = "" then DEFAULT_REGION else region
  let ecs_role_name ← (d.Get "ecs_role_name").assertString
  let (ecsRoleName, pc) ← getProviderConfig env d ecs_role_name "ram_role_name" pc
  let skip_region_validation ← (d.Get "skip_region_validation").assertBool
  let configuration_source ← (d.Get "configuration_source").assertString
  let protocol ← (d.Get "protocol").assertString
  let insecure ← (d.Get "insecure").assertBool
  let proxy ← (d.Get "proxy").assertString
  let config : Config :=
    { AccessKey := stringsTrimSpace accessKey
      SecretKey := stringsTrimSpace secretKey
      EcsRoleName := stringsTrimSpace ecsRoleName
      Region := stringsTrimSpace region
      RegionId := stringsTrimSpace region
      SkipRegionValidation := skip_region_validation
      ConfigurationSource := goBytes configuration_source
      Protocol := protocol
      Insecure := insecure
      Proxy := proxy }
  let security_token ← (d.Get "security_token").assertString
  let (token, pc) ← getProviderConfig env d security_token "sts_token" pc
  let config := { config with SecurityToken := stringsTrimSpace token }
  let (ramRoleArn, pc) ← getProviderConfig env d "" "ram_role_arn" pc
  let config := { config with RamRoleArn := ramRoleArn }
  let (ramRoleSessionName, pc) ← getProviderConfig env d "" "ram_session_name" pc
  let config := { config with RamRoleSessionName := ramRoleSessionName }
  let (expiredSeconds, pc) ← getConfigFromProfile env d "expired_seconds" pc
  let config ← applyExpiredSeconds expiredSeconds config
  let config ← applyAssumeRole env d config
  Except.ok ((config, region), pc)

/-- The loop `for _, endpointsSetI := range endpointsSet.List()` of
`providerConfigure`. -/
def endpointsLoop : List (List (String × AttrValue)) → Config → Except String Config
  | [], config => Except.ok config
  | endpoints :: rest, config =>
    match (mapField endpoints "ecs").assertString with
    | Except.error p => Except.error p
    | Except.ok ecs =>
      match (mapField endpoints "sts").assertString with
      | Except.error p => Except.error p
      | Except.ok sts =>
        endpointsLoop rest
          { config with
            EcsEndpoint := stringsTrimSpace ecs
            StsEndpoint := stringsTrimSpace sts }

/-- The endpoint block of `providerConfigure` (`domain := ...` up to the end of
the `else`). -/
def applyEndpoints (d : ProviderData) (config : Config) : Except String Config :=
  match (d.Get "domain").assertString with
  | Except.error p => Except.error p
  | Except.ok domain =>
    if domain ≠ "" then
      Except.ok
        { config with EcsEndpoint := "ecs." ++ domain, StsEndpoint := "sts." ++ domain }
    else
      match (d.Get "endpoints").assertSet with
      | Except.error p => Except.error p
      | Except.ok endpointsSet => endpointsLoop endpointsSet config

/-- The run of `providerConfigure` up to the test `config.RamRoleArn != ""`:
the `config` and the local `region` with which the STS step is reached.
`MakeConfigByEcsRoleName` is the method of `connectivity.Config`. -/
def providerConfigureBeforeSts (DEFAULT_REGION : String) (env : HostEnv)
    (MakeConfigByEcsRoleName : Config → Except GoError Config)
    (d : ProviderData) (providerConfig : Option JObj) :
    Except String (Except GoError (Config × String) × Option JObj) :=
  match providerConfigureResolve DEFAULT_REGION env d providerConfig with
  | Except.error p => Except.error p
  | Except.ok ((config, region), pc) =>
    match MakeConfigByEcsRoleName config with
    | Except.error err => Except.ok (Except.error err, pc)
    | Except.ok config =>
      match applyEndpoints d config with
      | Except.error p => Except.error p
      | Except.ok config => Except.ok (Except.ok (config, region), pc)

/-- The STS step of `providerConfigure`
(`if config.RamRoleArn != "" { ... }`). -/
def applySts {Client : Type} (sdk : StsSDK Client) (config : Config)
    (region : String) : Except GoError Config :=
  if config.RamRoleArn ≠ "" then
    match getAssumeRoleAK sdk config.AccessKey config.SecretKey config.SecurityToken
        region config.RamRoleArn config.RamRoleSessionName config.RamRolePolicy
        config.RamRoleSessionExpiration config.StsEndpoint with
    | Except.error err => Except.error err
    | Except.ok (ak, sk, token) =>
      Except.ok { config with AccessKey := ak, SecretKey := sk, SecurityToken := token }
  else
    Except.ok config

/-- The label `fmt.Sprintf("Default/%s:%s", ...)` of `providerConfigure`, cut to
64 bytes when longer; `u` is the value of `uuid.New()`. -/
def defaultSourceName (accessKey : String) (u : UUID) : List UInt8 :=
  let sourceName := goBytes ("Default/" ++ accessKey ++ ":" ++ stringsTrim u.String "-")
  if sourceName.length > 64 then sourceName.take 64 else sourceName

/-- The test `v, ok := d.GetOk(key); ok && v.(string) != ""` of the
`ots_instance_name` and `account_id` blocks, giving the string to store when
the test holds; the assertion is evaluated only when `ok` is true. -/
def getOkNonEmptyString (d : ProviderData) (key : String) :
    Except String (Option String) :=
  let (v, ok) := d.GetOk key
  if ok then
    match v.assertString with
    | Except.error p => Except.error p
    | Except.ok s => if s != "" then Except.ok (some s) else Except.ok none
  else
    Except.ok none

/-- The block `if config.ConfigurationSource == "" { ... }` of
`providerConfigure`. -/
def sourceNameBlock (u : UUID) (config : Config) : Config :=
  if config.ConfigurationSource.length = 0 then
    { config with ConfigurationSource := defaultSourceName config.AccessKey u }
  else config

/-- The last part of `providerConfigure` before `config.Client()`: the
`ots_instance_name`, `account_id` and `ConfigurationSource` blocks. -/
def applyFinish (d : ProviderData) (u : UUID) (config : Config) :
    Except String Config :=
  match getOkNonEmptyString d "ots_instance_name" with
  | Except.error p => Except.error p
  | Except.ok ots_instance_name =>
    let config : Config :=
      match ots_instance_name with
      | some s => { config with OtsInstanceName := stringsTrimSpace s }
      | none => config
    match getOkNonEmptyString d "account_id" with
    | Except.error p => Except.error p
    | Except.ok account =>
      let config : Config :=
        match account with
        | some s => { config with AccountId := stringsTrimSpace s }
        | none => config
      Except.ok (sourceNameBlock u config)

/-- The `config` on which `providerConfigure` calls `config.Client()`, or the
error it returns before that; with the package variable `providerConfig`
handed back. -/
def providerConfigureConfig {Client : Type} (DEFAULT_REGION : String)
    (env : HostEnv) (MakeConfigByEcsRoleName : Config → Except GoError Config)
    (sdk : StsSDK Client) (u : UUID) (d : ProviderData)
    (providerConfig : Option JObj) :
    Except String (Except GoError Config × Option JObj) :=
  match providerConfigureBeforeSts DEFAULT_REGION env MakeConfigByEcsRoleName d
      providerConfig with
  | Except.error p => Except.error p
  | Except.ok (Except.error err, pc) => Except.ok (Except.error err, pc)
  | Except.ok (Except.ok (config, region), pc) =>
    match applySts sdk config region with
    | Except.error err => Except.ok (Except.error err, pc)
    | Except.ok config =>
      match applyFinish d u config with
      | Except.error p => Except.error p
      | Except.ok config => Except.ok (Except.ok config, pc)

/-- Go `providerConfigure`.  `NewClient` is `(*connectivity.Config).Client`. -/
def providerConfigure {Client AliyunClient : Type} (DEFAULT_REGION : String)
    (env : HostEnv) (MakeConfigByEcsRoleName : Config → Except GoError Config)
    (sdk : StsSDK Client) (NewClient : Config → Except GoError AliyunClient)
    (u : UUID) (d : ProviderData) (providerConfig : Option JObj) :
    Except String (Except GoError AliyunClient × Option JObj) :=
  match providerConfigureConfig DEFAULT_REGION env MakeConfigByEcsRoleName sdk u d
      providerConfig with
  | Except.error p => Except.error p
  | Except.ok (Except.error err, pc) => Except.ok (Except.error err, pc)
  | Except.ok (Except.ok config, pc) => Except.ok (NewClient config, pc)

/-! ## Auxiliary notions for the statements -/

/-- Decimal digit test shared by `dtoi`, `Atoi` and `ParseUint`. -/
def isDigit (c : Char) : Prop := '0' ≤ c ∧ c ≤ '9'

/-- The number a run of decimal digits denotes, continuing from `n`. -/
def decimalValue (s : List Char) (n : Nat) : Nat :=
  s.foldl (fun a c => a * 10 + (c.toNat - '0'.toNat)) n

/-- The panic of the type assertion `v.(string)` on the nil interface. -/
def nilNotString : String :=
  "interface conversion: interface {} is nil, not string"

/-! ## Sample inputs for the closed statements -/

/-- A host whose home directory is `/root`, whose environment names the region
`cn-beijing`, and whose profile file `/root/.apsarastack/config.json` holds
the one profile `record`. -/
def sampleProfileEnv (record : JObj) : HostEnv :=
  { Getenv := fun name =>
      if name = "HOME" then "/root"
      else if name = "APSARASTACK_REGION" then "cn-beijing"
      else ""
    GOOS := "linux"
    homedirExpand := fun p => Except.ok p
    file := fun path =>
      if path = "/root/.apsarastack/config.json" then
        FileOutcome.decoded [("profiles", JVal.array [JVal.object record])]
      else
        FileOutcome.notExist }

/-- The resource data of an empty provider block with the keys `STATIC_AK` /
`STATIC_SK` taken from the environment: the seven declared attributes, the
two keys set, `skip_region_validation` at its default `true`. -/
def sampleKeysData : ProviderData :=
  schemaResourceData Provider
    (fun key =>
      if key = "access_key" then "STATIC_AK"
      else if key = "secret_key" then "STATIC_SK"
      else "")
    (fun key => key == "skip_region_validation")

/-- The resource data of an empty provider block with no key in the
environment. -/
def sampleEmptyData : ProviderData :=
  schemaResourceData Provider (fun _ => "") (fun key => key == "skip_region_validation")

/-- A profile record that holds `access_key_id` and no `mode`. -/
def sampleModelessProfile : JObj :=
  [("name", JVal.string "default"), ("access_key_id", JVal.string "PROFILE_AK")]

/-- A profile record of mode `AK` holding static keys. -/
def sampleAkProfile : JObj :=
  [("name", JVal.string "default"), ("mode", JVal.string "AK"),
    ("access_key_id", JVal.string "PROFILE_AK"),
    ("access_key_secret", JVal.string "PROFILE_SK")]


/-! ## Theorems: `intBetween` and the diff suppressors -/

/-- C8: `intBetween(min, max)` applied to an `int` value `v` returns no error
exactly when `min <= v <= max`; so `intBetween(1, 10)` accepts 5 and rejects 0
and 11; applied to a value of any other dynamic type (nil, string, bool,
float64) it returns the "expected type ... to be int" error, for every `min`
and `max`. -/
theorem intBetween_accepts_iff_in_range (min max : Int) (k : String) :
    (∀ v : Int, (intBetween min max (GoValue.int v) k).2 = [] ↔ (min ≤ v ∧ v ≤ max)) ∧
    (intBetween 1 10 (GoValue.int 5) k).2 = [] ∧
    (intBetween 1 10 (GoValue.int 0) k).2 ≠ [] ∧
    (intBetween 1 10 (GoValue.int 11) k).2 ≠ [] ∧
    (intBetween min max GoValue.nil k).2 = [ValidationError.expectedInt k] ∧
    (∀ s : String,
      (intBetween min max (GoValue.string s) k).2 = [ValidationError.expectedInt k]) ∧
    (∀ b : Bool,
      (intBetween min max (GoValue.bool b) k).2 = [ValidationError.expectedInt k]) ∧
    (∀ q : ℚ,
      (intBetween min max (GoValue.float64 q) k).2 = [ValidationError.expectedInt k]) := by
  refine ⟨?_, ?_, ?_, ?_, rfl, fun _ => rfl, fun _ => rfl, fun _ => rfl⟩
  · intro v
    unfold intBetween
    by_cases h : v < min ∨ v > max
    · simp only [h, if_true]
      constructor
      · intro hc
        simp at hc
      · intro hr
        omega
    · simp only [h, if_false]
      constructor
      · intro _
        omega
      · intro _
        trivial
  · simp [intBetween]
  · simp [intBetween]
  · simp [intBetween]

/-- C4: the port-range suppressor returns true exactly when either the
protocol is `tcp` or `udp` and the new value is the sentinel `AllPortRange`,
or the protocol is neither and the new value differs from the sentinel.  With
the sentinel as new value, `tcp` gives true and `icmp` false; with `"80/80"`
(which the sentinel is not) `tcp` gives false and `icmp` true. -/
theorem ecsSecurityGroupRulePortRangeDiffSuppressFunc_spec
    (AllPortRange k old new : String) (d : ResourceData) :
    (ecsSecurityGroupRulePortRangeDiffSuppressFunc AllPortRange k old new d = true ↔
      (((d.Get "ip_protocol" = "tcp" ∨ d.Get "ip_protocol" = "udp") ∧
          new = AllPortRange) ∨
        (¬ (d.Get "ip_protocol" = "tcp" ∨ d.Get "ip_protocol" = "udp") ∧
          new ≠ AllPortRange))) ∧
    ecsSecurityGroupRulePortRangeDiffSuppressFunc AllPortRange k old AllPortRange
      ⟨fun _ => "tcp"⟩ = true ∧
    ecsSecurityGroupRulePortRangeDiffSuppressFunc AllPortRange k old AllPortRange
      ⟨fun _ => "icmp"⟩ = false ∧
    (AllPortRange ≠ "80/80" →
      ecsSecurityGroupRulePortRangeDiffSuppressFunc AllPortRange k old "80/80"
        ⟨fun _ => "tcp"⟩ = false ∧
      ecsSecurityGroupRulePortRangeDiffSuppressFunc AllPortRange k old "80/80"
        ⟨fun _ => "icmp"⟩ = true) := by
  refine ⟨?_, ?_, ?_, ?_⟩
  · unfold ecsSecurityGroupRulePortRangeDiffSuppressFunc
    by_cases hp : d.Get "ip_protocol" = "tcp" ∨ d.Get "ip_protocol" = "udp" <;>
      by_cases hn : new = AllPortRange <;> simp [hp, hn]
  · simp [ecsSecurityGroupRulePortRangeDiffSuppressFunc, ResourceData.Get]
  · simp [ecsSecurityGroupRulePortRangeDiffSuppressFunc, ResourceData.Get]
  · intro h
    have h1 : ¬ ("80/80" = AllPortRange) := fun e => h e.symm
    simp [ecsSecurityGroupRulePortRangeDiffSuppressFunc, ResourceData.Get, h1]

/-- Witness of C4 at a sentinel written with two minus-one ports, which differs
from `"80/80"`. -/
theorem ecsSecurityGroupRulePortRangeDiffSuppressFunc_spec_witness :
    ("-1/-1" : String) ≠ "80/80" ∧
    ecsSecurityGroupRulePortRangeDiffSuppressFunc "-1/-1" "port_range" "1/200" "80/80"
      ⟨fun _ => "tcp"⟩ = false ∧
    ecsSecurityGroupRulePortRangeDiffSuppressFunc "-1/-1" "port_range" "1/200" "80/80"
      ⟨fun _ => "icmp"⟩ = true :=
  ⟨by decide,
    (ecsSecurityGroupRulePortRangeDiffSuppressFunc_spec "-1/-1" "port_range" "1/200"
      "80/80" ⟨fun _ => "tcp"⟩).2.2.2 (by decide)⟩

/-- C7, as stated, fails: with `vswitch_id` set to `"vsw-1"` (non-empty after
trimming blanks) the function returns false, not true. -/
theorem vpcTypeResourceDiffSuppressFunc_set_not_suppressed :
    0 < (stringsTrim "vsw-1" " ").utf8ByteSize ∧
    ¬ (vpcTypeResourceDiffSuppressFunc (fun v => stringsTrim v " ") "instance_type"
        "classic" "vpc" ⟨fun key => if key = "vswitch_id" then "vsw-1" else ""⟩ = true) := by
  constructor
  · decide
  · decide

/-- C7, amended: for every `Trim`, `k`, `old`, `new` and resource state,
`vpcTypeResourceDiffSuppressFunc` returns true exactly when `vswitch_id` is
empty after `Trim`; when `vswitch_id` is set it returns false. -/
theorem vpcTypeResourceDiffSuppressFunc_true_iff_unset (Trim : String → String)
    (k old new : String) (d : ResourceData) :
    (vpcTypeResourceDiffSuppressFunc Trim k old new d = true ↔
      (Trim (d.Get "vswitch_id")).utf8ByteSize = 0) ∧
    (vpcTypeResourceDiffSuppressFunc Trim k old new d = false ↔
      0 < (Trim (d.Get "vswitch_id")).utf8ByteSize) := by
  unfold vpcTypeResourceDiffSuppressFunc
  by_cases h : (Trim (d.Get "vswitch_id")).utf8ByteSize > 0
  · simp only [h, if_true]
    constructor
    · constructor
      · intro hc
        simp at hc
      · intro h0
        omega
    · simp
  · simp only [h, if_false]
    constructor
    · simp only [true_iff]
      omega
    · simp only [Bool.true_eq_false, false_iff, h, not_false_eq_true]

/-- C9: `kmsDiffSuppressFunc` returns true exactly when the state's `password`
or its `account_password` is a non-empty string, whatever `k`, `old` and `new`
are; so a state with only a non-empty `account_password` is suppressed for
every `old` and `new`. -/
theorem kmsDiffSuppressFunc_true_iff (k old new : String) (d : ResourceData) :
    (kmsDiffSuppressFunc k old new d = true ↔
      (d.Get "password" ≠ "" ∨ d.Get "account_password" ≠ "")) ∧
    kmsDiffSuppressFunc k old new
      ⟨fun key => if key = "account_password" then "Secret1" else ""⟩ = true := by
  constructor
  · unfold kmsDiffSuppressFunc ResourceData.GetOk ResourceData.Get
    by_cases h1 : d.attrs "password" = "" <;>
      by_cases h2 : d.attrs "account_password" = "" <;> simp [h1, h2]
  · simp [kmsDiffSuppressFunc, ResourceData.GetOk]

/-! ## Lemmas on the scanners -/

theorem decimalValue_ge (s : List Char) (n : Nat) : n ≤ decimalValue s n := by
  induction s generalizing n with
  | nil => simp [decimalValue]
  | cons c cs ih =>
    have h := ih (n * 10 + (c.toNat - '0'.toNat))
    simp only [decimalValue, List.foldl_cons] at h ⊢
    omega

theorem IndexByteString_some {c : Char} :
    ∀ {l : List Char} {i : Nat}, IndexByteString l c = some i →
      ∃ rest, l = l.take i ++ c :: rest ∧ c ∉ l.take i ∧ l.drop (i + 1) = rest := by
  intro l
  induction l with
  | nil => intro i h; simp [IndexByteString] at h
  | cons x xs ih =>
    intro i h
    unfold IndexByteString at h
    by_cases hx : x = c
    · simp only [hx, if_true, Option.some.injEq] at h
      subst h
      exact ⟨xs, by simp [hx], by simp, by simp⟩
    · simp only [hx, if_false] at h
      cases hr : IndexByteString xs c with
      | none => simp [hr] at h
      | some j =>
        simp only [hr, Option.some.injEq] at h
        subst h
        obtain ⟨rest, h1, h2, h3⟩ := ih hr
        refine ⟨rest, ?_, ?_, ?_⟩
        · simp only [List.take_succ_cons, List.cons_append]
          rw [← h1]
        · simp only [List.take_succ_cons, List.mem_cons, not_or]
          exact ⟨fun e => hx e.symm, h2⟩
        · simpa using h3

theorem dtoiLoop_full :
    ∀ (s : List Char) (n i n1 : Nat),
      dtoiLoop s n i = (n1, i + s.length, true) → n < big →
        (∀ c ∈ s, isDigit c) ∧ n1 = decimalValue s n ∧ n1 < big := by
  intro s
  induction s with
  | nil =>
    intro n i n1 h hn
    simp only [dtoiLoop, Prod.mk.injEq] at h
    refine ⟨by simp, ?_, ?_⟩
    · simp [decimalValue, h.1]
    · omega
  | cons c cs ih =>
    intro n i n1 h hn
    unfold dtoiLoop at h
    by_cases hd : '0' ≤ c ∧ c ≤ '9'
    · simp only [hd, and_self, if_true] at h
      by_cases hb : n * 10 + (c.toNat - '0'.toNat) ≥ big
      · simp only [hb, if_true, Prod.mk.injEq] at h
        simp at h
      · simp only [hb, if_false] at h
        have hlen : i + (c :: cs).length = (i + 1) + cs.length := by
          simp only [List.length_cons]; omega
        rw [hlen] at h
        obtain ⟨h1, h2, h3⟩ := ih _ _ _ h (by omega)
        refine ⟨?_, ?_, h3⟩
        · intro x hx
          rcases List.mem_cons.mp hx with rfl | hx
          · exact hd
          · exact h1 x hx
        · simpa [decimalValue] using h2
    · simp only [hd, if_false, Prod.mk.injEq] at h
      simp only [List.length_cons] at h
      omega

theorem dtoi_full {s : List Char} {n : Nat} (h : dtoi s = (n, s.length, true)) :
    s ≠ [] ∧ (∀ c ∈ s, isDigit c) ∧ n = decimalValue s 0 ∧ n < big := by
  unfold dtoi at h
  rcases hl : dtoiLoop s 0 0 with ⟨n1, j, ok⟩
  rw [hl] at h
  cases ok with
  | false => simp at h
  | true =>
    simp only at h
    by_cases hj : j = 0
    · simp [hj] at h
    · simp only [hj, if_false, Prod.mk.injEq, and_true] at h
      obtain ⟨hn, hjl⟩ := h
      subst hn
      subst hjl
      have hl1 : dtoiLoop s 0 0 = (n1, 0 + s.length, true) := by simpa using hl
      obtain ⟨h1, h2, h3⟩ := dtoiLoop_full s 0 0 n1 hl1 (by decide)
      refine ⟨?_, h1, h2, h3⟩
      intro hs
      apply hj
      simp [hs]

theorem splitChars_no_sep {sep : Char} :
    ∀ {l : List Char}, sep ∉ l → splitChars sep l = [l] := by
  intro l
  induction l with
  | nil => intro _; rfl
  | cons c cs ih =>
    intro h
    have hc : ¬ c = sep := fun e => h (by simp [e])
    have hcs : sep ∉ cs := fun e => h (List.mem_cons_of_mem _ e)
    simp only [splitChars, hc, if_false, ih hcs]

theorem splitChars_one_sep {sep : Char} :
    ∀ {a b : List Char}, sep ∉ a → sep ∉ b →
      splitChars sep (a ++ sep :: b) = [a, b] := by
  intro a
  induction a with
  | nil =>
    intro b _ hb
    simp only [List.nil_append, splitChars, if_true, splitChars_no_sep hb]
  | cons c cs ih =>
    intro b ha hb
    have hc : ¬ c = sep := fun e => ha (by simp [e])
    have hcs : sep ∉ cs := fun e => ha (List.mem_cons_of_mem _ e)
    have h : splitChars sep (cs.append (sep :: b)) = [cs, b] := ih hcs hb
    simp only [List.cons_append, splitChars, hc, if_false]
    rw [h]

theorem isDigit_ne_slash {c : Char} (h : isDigit c) : c ≠ '/' := by
  rintro rfl
  exact absurd h.1 (by decide)

theorem isDigit_not_sign {c : Char} (h : isDigit c) : ¬ (c = '-' ∨ c = '+') := by
  rintro (rfl | rfl)
  · exact absurd h.1 (by decide)
  · exact absurd h.1 (by decide)

theorem atoiFastLoop_digits :
    ∀ (s : List Char) (n : Nat), (∀ c ∈ s, isDigit c) →
      atoiFastLoop s n = some (decimalValue s n) := by
  intro s
  induction s with
  | nil => intro n _; rfl
  | cons c cs ih =>
    intro n h
    have hc : '0' ≤ c ∧ c ≤ '9' := h c (by simp)
    unfold atoiFastLoop
    simp only [hc, and_self, if_true]
    rw [ih _ (fun x hx => h x (List.mem_cons_of_mem _ hx))]
    rfl

theorem parseUintLoop_digits :
    ∀ (s : List Char) (n : Nat), (∀ c ∈ s, isDigit c) → decimalValue s n < big →
      parseUintLoop s n = (decimalValue s n, none) := by
  intro s
  induction s with
  | nil => intro n _ _; rfl
  | cons c cs ih =>
    intro n h hv
    have hc : '0' ≤ c ∧ c ≤ '9' := h c (by simp)
    have hstep : decimalValue (c :: cs) n =
        decimalValue cs (n * 10 + (c.toNat - '0'.toNat)) := rfl
    have hge := decimalValue_ge cs (n * 10 + (c.toNat - '0'.toNat))
    rw [hstep] at hv
    have hbig : big = 16777215 := rfl
    unfold parseUintLoop
    simp only [hc, and_self, if_true]
    have h1 : ¬ (n ≥ (2 ^ 64 - 1) / 10 + 1) := by
      norm_num
      omega
    have h2 : ¬ (n * 10 + (c.toNat - '0'.toNat) > 2 ^ 64 - 1) := by
      norm_num
      omega
    simp only [h1, h2, if_false]
    rw [ih _ (fun x hx => h x (List.mem_cons_of_mem _ hx)) hv, hstep]

theorem Atoi_digits {s : List Char} (hne : s ≠ []) (hd : ∀ c ∈ s, isDigit c)
    (hv : decimalValue s 0 < big) :
    Atoi (String.mk s) = (((decimalValue s 0 : Nat) : Int), none) := by
  obtain ⟨c, cs, rfl⟩ := List.exists_cons_of_ne_nil hne
  have hc : isDigit c := hd c (by simp)
  have hsign := isDigit_not_sign hc
  have hminus : ¬ c = '-' := fun e => hsign (Or.inl e)
  have hplus : ¬ c = '+' := fun e => hsign (Or.inr e)
  have hbig : big = 16777215 := rfl
  unfold Atoi
  by_cases hlen : 0 < (String.mk (c :: cs)).utf8ByteSize ∧
      (String.mk (c :: cs)).utf8ByteSize < 19
  · simp only [hlen, and_self, if_true, String.toList, hsign, if_false,
      atoiFastLoop_digits _ _ hd, hminus]
    simp [hplus, atoiFastLoop_digits _ _ hd]
  · simp only [hlen, if_false, String.toList, ParseInt, hminus, hplus, or_self,
      decide_False, ParseUint, parseUintLoop_digits _ _ hd hv]
    have h3 : ¬ (decimalValue (c :: cs) 0 ≥ 2 ^ 63) := by
      norm_num
      omega
    simp [h3]
    omega

theorem simpleMaskLength_CIDRMask (n bits : Nat) (hb : bits = 32 ∨ bits = 128)
    (hn : n ≤ bits) : simpleMaskLength (CIDRMask n bits) = (n : Int) := by
  rcases hb with rfl | rfl
  · interval_cases n <;> rfl
  · interval_cases n <;> rfl

theorem ParseCIDR_some {s : String} {ip : IP} {ipnet : IPNet}
    (h : ParseCIDR s = some (ip, ipnet)) :
    ∃ (addr mask : List Char) (n bits : Nat),
      s.toList = addr ++ '/' :: mask ∧ '/' ∉ addr ∧
      dtoi mask = (n, mask.length, true) ∧ n ≤ bits ∧ (bits = 32 ∨ bits = 128) ∧
      ipnet.Mask = CIDRMask n bits := by
  unfold ParseCIDR at h
  generalize s.toList = l at h ⊢
  cases hI : IndexByteString l '/' with
  | none =>
    rw [hI] at h
    simp at h
  | some i =>
    obtain ⟨rest, hs, hno, hrest⟩ := IndexByteString_some hI
    simp only [hI, hrest] at h
    rcases hd : dtoi rest with ⟨n, j, ok⟩
    simp only [hd] at h
    cases hv4 : parseIPv4 (l.take i) with
    | some ip4 =>
      simp only [hv4, Option.isSome_some, if_true] at h
      by_cases hc : (!ok || j != rest.length || decide (n > 8 * IPv4len)) = true
      · simp [hc] at h
      · rw [if_neg hc] at h
        simp only [Option.some.injEq, Prod.mk.injEq] at h
        simp only [Bool.or_eq_true, Bool.not_eq_true', bne_iff_ne, ne_eq, decide_eq_true_eq,
          not_or, Bool.not_eq_false, Decidable.not_not, not_lt] at hc
        obtain ⟨⟨hok, hj⟩, hn⟩ := hc
        subst hok
        subst hj
        refine ⟨l.take i, rest, n, 32, hs, hno, hd, hn, Or.inl rfl, ?_⟩
        rw [← h.2]
        rfl
    | none =>
      simp only [hv4, Option.isSome_none, Bool.false_eq_true, if_false] at h
      cases hv6 : parseIPv6 (l.take i) with
      | none =>
        rw [hv6] at h
        simp at h
      | some ip6 =>
        rw [hv6] at h
        simp only at h
        by_cases hc : (!ok || j != rest.length || decide (n > 8 * IPv6len)) = true
        · simp [hc] at h
        · rw [if_neg hc] at h
          simp only [Option.some.injEq, Prod.mk.injEq] at h
          simp only [Bool.or_eq_true, Bool.not_eq_true', bne_iff_ne, ne_eq, decide_eq_true_eq,
            not_or, Bool.not_eq_false, Decidable.not_not, not_lt] at hc
          obtain ⟨⟨hok, hj⟩, hn⟩ := hc
          subst hok
          subst hj
          refine ⟨l.take i, rest, n, 128, hs, hno, hd, hn, Or.inr rfl, ?_⟩
          rw [← h.2]
          rfl

/-! ## Theorems: the CIDR validators -/

/-- C5: for every string `s` that `net.ParseCIDR` parses to a network `ipnet`
and that equals the canonical text `ipnet.String()` of that network,
`validateSwitchCIDRNetworkAddress` returns (without panicking) no warning and
no error when the prefix length of the network, the number of leading ones of
its mask, is in [16, 29], and exactly one error, the "mark between 16 and 29"
one, when the prefix length is below 16 or above 29. -/
theorem validateSwitchCIDRNetworkAddress_canonical (s k : String) (ip : IP)
    (ipnet : IPNet) (hparse : ParseCIDR s = some (ip, ipnet))
    (hcanon : s = ipnet.String) :
    validateSwitchCIDRNetworkAddress (GoValue.string s) k =
      Except.ok ([],
        if 16 ≤ simpleMaskLength ipnet.Mask ∧ simpleMaskLength ipnet.Mask ≤ 29 then []
        else [ValidationError.markNotBetween16And29 k]) := by
  obtain ⟨addr, mask, n, bits, hs, hno, hd, hn, hb, hm⟩ := ParseCIDR_some hparse
  obtain ⟨hne, hdig, hval, hbig⟩ := dtoi_full hd
  have hlen := simpleMaskLength_CIDRMask n bits hb hn
  have hmask : '/' ∉ mask := fun hin => isDigit_ne_slash (hdig _ hin) rfl
  have hsplit : stringsSplitSlash s = [String.mk addr, String.mk mask] := by
    unfold stringsSplitSlash
    rw [hs, splitChars_one_sep hno hmask]
    rfl
  have hatoi : Atoi (String.mk mask) = ((n : Int), none) := by
    rw [hval]
    exact Atoi_digits hne hdig (hval ▸ hbig)
  unfold validateSwitchCIDRNetworkAddress
  simp only [hparse]
  rw [if_neg (not_not.mpr hcanon), ← hcanon, hsplit]
  simp only [List.get?_cons_succ, List.get?_cons_zero, hatoi, hm, hlen]
  by_cases hr : (n : Int) < 16 ∨ (n : Int) > 29
  · have hr2 : ¬ (16 ≤ (n : Int) ∧ (n : Int) ≤ 29) := by omega
    simp only [hr, hr2, if_true, if_false]
  · have hr2 : 16 ≤ (n : Int) ∧ (n : Int) ≤ 29 := by omega
    simp only [hr, hr2, and_self, if_true, if_false]

/-- Witness of C5: `10.1.0.0/16` is canonical with prefix length 16 and is
accepted. -/
theorem validateSwitchCIDRNetworkAddress_canonical_witness :
    ParseCIDR "10.1.0.0/16" =
      some ([0, 0, 0, 0, 0, 0, 0, 0, 0, 0, 255, 255, 10, 1, 0, 0],
        { IP := [10, 1, 0, 0], Mask := [255, 255, 0, 0] }) ∧
    "10.1.0.0/16" = IPNet.String { IP := [10, 1, 0, 0], Mask := [255, 255, 0, 0] } ∧
    validateSwitchCIDRNetworkAddress (GoValue.string "10.1.0.0/16") "cidr_block" =
      Except.ok ([], []) :=
  ⟨by decide, by decide,
    validateSwitchCIDRNetworkAddress_canonical "10.1.0.0/16" "cidr_block"
      [0, 0, 0, 0, 0, 0, 0, 0, 0, 0, 255, 255, 10, 1, 0, 0]
      { IP := [10, 1, 0, 0], Mask := [255, 255, 0, 0] } (by decide) (by decide)⟩

/-- C6: on every string `s`, `validateCIDRNetworkAddress` returns (without
panicking) an empty error list if and only if `net.ParseCIDR` parses `s` and
`s` is identical to the canonical text `ipnet.String()` of the parsed network;
`10.0.0.0/8` is accepted and `10.0.0.1/24` is rejected, its network being
`10.0.0.0/24`. -/
theorem validateCIDRNetworkAddress_accepts_iff (s k : String) :
    (∃ errors : List ValidationError,
      validateCIDRNetworkAddress (GoValue.string s) k = Except.ok ([], errors) ∧
      (errors = [] ↔
        ∃ (ip : IP) (ipnet : IPNet), ParseCIDR s = some (ip, ipnet) ∧ s = ipnet.String)) ∧
    validateCIDRNetworkAddress (GoValue.string "10.0.0.0/8") k = Except.ok ([], []) ∧
    validateCIDRNetworkAddress (GoValue.string "10.0.0.1/24") k =
      Except.ok ([], [ValidationError.notNetworkCIDR k "10.0.0.0/24" "10.0.0.1/24"]) := by
  refine ⟨?_, rfl, rfl⟩
  cases hp : ParseCIDR s with
  | none =>
    refine ⟨[ValidationError.invalidCIDR k (cidrParseError s)], ?_, ?_⟩
    · simp only [validateCIDRNetworkAddress, hp]
    · simp
  | some r =>
    obtain ⟨ip, ipnet⟩ := r
    by_cases hc : s = ipnet.String
    · refine ⟨[], ?_, ?_⟩
      · simp only [validateCIDRNetworkAddress, hp]
        rw [if_neg (not_not.mpr hc)]
      · simp only [true_iff]
        exact ⟨ip, ipnet, rfl, hc⟩
    · refine ⟨[ValidationError.notNetworkCIDR k ipnet.String s], ?_, ?_⟩
      · simp only [validateCIDRNetworkAddress, hp]
        rw [if_pos hc]
      · simp only [List.cons_ne_nil, false_iff, not_exists, not_and]
        intro ip2 ipnet2 h2
        simp only [Option.some.injEq, Prod.mk.injEq] at h2
        rw [← h2.2]
        exact hc

/-! ## Theorems: credential resolution on a loaded profile record -/

/-- With a record in `providerConfig` the call goes straight to the lookup. -/
theorem getConfigFromProfile_loaded (env : HostEnv) (d : ProviderData)
    (key : String) (record : JObj) :
    getConfigFromProfile env d key (some record) =
      match profileLookup record key with
      | Except.error p => Except.error p
      | Except.ok r => Except.ok (r, some record) := rfl

/-- On a loaded profile record whose `access_key_id` is a string `v` and whose
`mode` is a string `m`, the resolver `getProviderConfig` applied to an empty
explicit value and the key `access_key_id` returns `v` when `m` is not
`EcsRamRole` and the empty string when `m` is `EcsRamRole`, leaving the loaded
record in place. -/
theorem getProviderConfig_loaded_access_key (env : HostEnv) (d : ProviderData)
    (record : JObj) (v m : String)
    (hv : record.lookup "access_key_id" = some (JVal.string v))
    (hm : record.lookup "mode" = some (JVal.string m)) :
    getProviderConfig env d "" "access_key_id" (some record) =
      Except.ok (if m = "EcsRamRole" then "" else v, some record) := by
  unfold getProviderConfig
  rw [getConfigFromProfile_loaded]
  unfold profileLookup
  rw [hm]
  by_cases hmode : m = "EcsRamRole"
  · simp [hmode, JVal.isNil]
  · simp [hmode, mapIndex, hv, JVal.isNil]

/-! ## Lemmas: the resource data of `Provider()` -/

/-- The keys that `providerConfigure` and `getConfigFromProfile` read and the
schema of `Provider()` does not declare all read as the nil interface. -/
theorem schemaResourceData_Provider_undeclared (strings : String → String)
    (bools : String → Bool) :
    (schemaResourceData Provider strings bools).Get "region" = AttrValue.nil ∧
    (schemaResourceData Provider strings bools).Get "ecs_role_name" = AttrValue.nil ∧
    (schemaResourceData Provider strings bools).Get "configuration_source" = AttrValue.nil ∧
    (schemaResourceData Provider strings bools).Get "protocol" = AttrValue.nil ∧
    (schemaResourceData Provider strings bools).Get "assume_role" = AttrValue.nil ∧
    (schemaResourceData Provider strings bools).Get "endpoints" = AttrValue.nil ∧
    (schemaResourceData Provider strings bools).Get "profile" = AttrValue.nil ∧
    (schemaResourceData Provider strings bools).Get "shared_credentials_file" =
      AttrValue.nil ∧
    (schemaResourceData Provider strings bools).Get "ots_instance_name" = AttrValue.nil ∧
    (schemaResourceData Provider strings bools).Get "account_id" = AttrValue.nil :=
  ⟨rfl, rfl, rfl, rfl, rfl, rfl, rfl, rfl, rfl, rfl⟩

/-- The two declared keys read as strings. -/
theorem schemaResourceData_Provider_keys (strings : String → String)
    (bools : String → Bool) :
    (schemaResourceData Provider strings bools).Get "access_key" =
      AttrValue.string (strings "access_key") ∧
    (schemaResourceData Provider strings bools).Get "secret_key" =
      AttrValue.string (strings "secret_key") :=
  ⟨rfl, rfl⟩

/-- With no record loaded, the read of `profile` gives `(nil, false)` and the
assertion `v.(string)` panics. -/
theorem getConfigFromProfile_schema_none (env : HostEnv) (strings : String → String)
    (bools : String → Bool) (key : String) :
    getConfigFromProfile env (schemaResourceData Provider strings bools) key none =
      Except.error nilNotString := rfl

/-- With no record loaded, the closure panics exactly when the explicit value
is empty. -/
theorem getProviderConfig_schema_none (env : HostEnv) (strings : String → String)
    (bools : String → Bool) (str key : String) :
    getProviderConfig env (schemaResourceData Provider strings bools) str key none =
      if str = "" then Except.error nilNotString else Except.ok (str, none) := by
  unfold getProviderConfig
  rw [getConfigFromProfile_schema_none]

/-- From the initial state the first part of `providerConfigure` panics with
the nil-to-string conversion: in a profile lookup when a key is empty, at the
read of `region` otherwise. -/
theorem providerConfigureResolve_schema_none (DEFAULT_REGION : String) (env : HostEnv)
    (strings : String → String) (bools : String → Bool) :
    providerConfigureResolve DEFAULT_REGION env (schemaResourceData Provider strings bools)
      none = Except.error nilNotString := by
  have hreg : ((schemaResourceData Provider strings bools).Get "region").assertString =
      Except.error nilNotString := rfl
  have hak : ((schemaResourceData Provider strings bools).Get "access_key").assertString =
      Except.ok (strings "access_key") := rfl
  have hsk : ((schemaResourceData Provider strings bools).Get "secret_key").assertString =
      Except.ok (strings "secret_key") := rfl
  simp only [providerConfigureResolve, bind, Except.bind, hak, hsk, hreg,
    getProviderConfig_schema_none]
  by_cases h1 : strings "access_key" = ""
  · rw [if_pos h1]
  · rw [if_neg h1]
    simp only [getProviderConfig_schema_none]
    by_cases h2 : strings "secret_key" = ""
    · rw [if_pos h2]
    · rw [if_neg h2]

/-- From any state of the profile cache the first part of `providerConfigure`
panics, at the read of `region` at the latest. -/
theorem providerConfigureResolve_schema_panics (DEFAULT_REGION : String) (env : HostEnv)
    (strings : String → String) (bools : String → Bool) (providerConfig : Option JObj) :
    ∃ p, providerConfigureResolve DEFAULT_REGION env
      (schemaResourceData Provider strings bools) providerConfig = Except.error p := by
  have hreg : ((schemaResourceData Provider strings bools).Get "region").assertString =
      Except.error nilNotString := rfl
  have hak : ((schemaResourceData Provider strings bools).Get "access_key").assertString =
      Except.ok (strings "access_key") := rfl
  have hsk : ((schemaResourceData Provider strings bools).Get "secret_key").assertString =
      Except.ok (strings "secret_key") := rfl
  simp only [providerConfigureResolve, bind, Except.bind, hak, hsk, hreg]
  cases getProviderConfig env (schemaResourceData Provider strings bools)
      (strings "access_key") "access_key_id" providerConfig with
  | error p => exact ⟨p, rfl⟩
  | ok r1 =>
    simp only
    cases getProviderConfig env (schemaResourceData Provider strings bools)
        (strings "secret_key") "access_key_secret" r1.2 with
    | error p => exact ⟨p, rfl⟩
    | ok r2 => exact ⟨nilNotString, rfl⟩

/-! ## Theorems: `providerConfigure` on the resource data of `Provider()` -/

/-- C2 (code defect): with the schema of `Provider()` the key `profile` reads
as the nil interface, so from the initial state of the package (no profile
loaded) every profile lookup panics in the assertion `v.(string)` of
`getConfigFromProfile`, and the resolver `getProviderConfig`, given an empty
explicit access key, panics instead of returning the profile's
`access_key_id`; so it does on the host whose profile file holds a record of
mode `AK` with `access_key_id` set. -/
theorem getProviderConfig_profile_lookup_panics (env : HostEnv)
    (strings : String → String) (bools : String → Bool) :
    (schemaResourceData Provider strings bools).GetOk "profile" = (AttrValue.nil, false) ∧
    (∀ key, getConfigFromProfile env (schemaResourceData Provider strings bools) key none =
      Except.error nilNotString) ∧
    getProviderConfig env (schemaResourceData Provider strings bools) ""
      "access_key_id" none = Except.error nilNotString ∧
    List.lookup "mode" sampleAkProfile = some (JVal.string "AK") ∧
    List.lookup "access_key_id" sampleAkProfile = some (JVal.string "PROFILE_AK") ∧
    getProviderConfig (sampleProfileEnv sampleAkProfile) sampleEmptyData ""
      "access_key_id" none =
      Except.error "interface conversion: interface {} is nil, not string" := by
  refine ⟨rfl, fun key => getConfigFromProfile_schema_none env strings bools key, ?_,
    rfl, rfl, rfl⟩
  rw [getProviderConfig_schema_none, if_pos rfl]

/-- C1 (code defect): with the schema of `Provider()` the key `region` reads as
the nil interface, so on every resource data that schema can build, from the
initial state of the package, `providerConfigure` panics in
`d.Get("region").(string)` or earlier: the STS step is never reached, and no
configuration is handed to the client factory, whatever
`MakeConfigByEcsRoleName`, the STS SDK and the factory do; from any state of
the profile cache the run never gets through the resolution either.  So it is
for the empty provider block with both keys in the environment. -/
theorem providerConfigure_panics_before_sts {Client AliyunClient : Type}
    (DEFAULT_REGION : String) (env : HostEnv)
    (MakeConfigByEcsRoleName : Config → Except GoError Config)
    (sdk : StsSDK Client) (NewClient : Config → Except GoError AliyunClient)
    (u : UUID) (strings : String → String) (bools : String → Bool) :
    (schemaResourceData Provider strings bools).Get "region" = AttrValue.nil ∧
    providerConfigureBeforeSts DEFAULT_REGION env MakeConfigByEcsRoleName
      (schemaResourceData Provider strings bools) none = Except.error nilNotString ∧
    providerConfigure DEFAULT_REGION env MakeConfigByEcsRoleName sdk NewClient u
      (schemaResourceData Provider strings bools) none = Except.error nilNotString ∧
    (∀ providerConfig, ∃ p,
      providerConfigureBeforeSts DEFAULT_REGION env MakeConfigByEcsRoleName
        (schemaResourceData Provider strings bools) providerConfig = Except.error p) ∧
    providerConfigure DEFAULT_REGION env MakeConfigByEcsRoleName sdk NewClient u
      sampleKeysData none =
      Except.error "interface conversion: interface {} is nil, not string" := by
  have hres := providerConfigureResolve_schema_none DEFAULT_REGION env strings bools
  have hbefore : providerConfigureBeforeSts DEFAULT_REGION env MakeConfigByEcsRoleName
      (schemaResourceData Provider strings bools) none = Except.error nilNotString := by
    unfold providerConfigureBeforeSts
    rw [hres]
  have hrun : ∀ (s : String → String) (b : String → Bool),
      providerConfigure DEFAULT_REGION env MakeConfigByEcsRoleName sdk NewClient u
        (schemaResourceData Provider s b) none = Except.error nilNotString := by
    intro s b
    unfold providerConfigure providerConfigureConfig providerConfigureBeforeSts
    rw [providerConfigureResolve_schema_none]
  refine ⟨rfl, hbefore, hrun strings bools, ?_, hrun _ _⟩
  intro providerConfig
  obtain ⟨p, hp⟩ := providerConfigureResolve_schema_panics DEFAULT_REGION env strings bools
    providerConfig
  refine ⟨p, ?_⟩
  unfold providerConfigureBeforeSts
  rw [hp]

/-- C3 (code defect): with the schema of `Provider()` the keys `assume_role` and
`region` read as the nil interface, so on every resource data that schema can
build the first part of `providerConfigure` panics before the `assume_role`
block, which would itself panic in `d.Get("assume_role").(*schema.Set)`:
no `RamRoleSessionExpiration` is resolved, neither 3600 nor any other.  So it
is for the provider block with the keys in the environment. -/
theorem providerConfigureResolve_panics_on_schema_data (DEFAULT_REGION : String)
    (env : HostEnv) (strings : String → String) (bools : String → Bool) :
    (schemaResourceData Provider strings bools).Get "assume_role" = AttrValue.nil ∧
    providerConfigureResolve DEFAULT_REGION env (schemaResourceData Provider strings bools)
      none = Except.error nilNotString ∧
    (∀ providerConfig, ∃ p, providerConfigureResolve DEFAULT_REGION env
      (schemaResourceData Provider strings bools) providerConfig = Except.error p) ∧
    (∀ config, applyAssumeRole env (schemaResourceData Provider strings bools) config =
      Except.error "interface conversion: interface {} is nil, not *schema.Set") ∧
    providerConfigureResolve DEFAULT_REGION env sampleKeysData none =
      Except.error "interface conversion: interface {} is nil, not string" :=
  ⟨rfl, providerConfigureResolve_schema_none DEFAULT_REGION env strings bools,
    providerConfigureResolve_schema_panics DEFAULT_REGION env strings bools,
    fun _ => rfl,
    providerConfigureResolve_schema_none DEFAULT_REGION env _ _⟩

/-- C10 (code defect): with the schema of `Provider()` the key
`configuration_source` reads as the nil interface, like `region` before it, so
on every resource data that schema can build `providerConfigure` panics before
it builds `config`: no `ConfigurationSource` is set, neither the default label
nor a supplied one, and `config.Client()` is not called.  So it is for the
empty provider block with both keys in the environment. -/
theorem providerConfigureConfig_panics_on_schema_data {Client : Type}
    (DEFAULT_REGION : String) (env : HostEnv)
    (MakeConfigByEcsRoleName : Config → Except GoError Config)
    (sdk : StsSDK Client) (u : UUID) (strings : String → String)
    (bools : String → Bool) :
    (schemaResourceData Provider strings bools).Get "configuration_source" =
      AttrValue.nil ∧
    ((schemaResourceData Provider strings bools).Get "configuration_source").assertString =
      Except.error nilNotString ∧
    providerConfigureConfig DEFAULT_REGION env MakeConfigByEcsRoleName sdk u
      (schemaResourceData Provider strings bools) none = Except.error nilNotString ∧
    (∀ providerConfig, ∃ p,
      providerConfigureConfig DEFAULT_REGION env MakeConfigByEcsRoleName sdk u
        (schemaResourceData Provider strings bools) providerConfig = Except.error p) ∧
    providerConfigureConfig DEFAULT_REGION env MakeConfigByEcsRoleName sdk u
      sampleKeysData none =
      Except.error "interface conversion: interface {} is nil, not string" := by
  have hrun : ∀ (s : String → String) (b : String → Bool),
      providerConfigureConfig DEFAULT_REGION env MakeConfigByEcsRoleName sdk u
        (schemaResourceData Provider s b) none = Except.error nilNotString := by
    intro s b
    unfold providerConfigureConfig providerConfigureBeforeSts
    rw [providerConfigureResolve_schema_none]
  refine ⟨rfl, rfl, hrun strings bools, ?_, hrun _ _⟩
  intro providerConfig
  obtain ⟨p, hp⟩ := providerConfigureResolve_schema_panics DEFAULT_REGION env strings bools
    providerConfig
  refine ⟨p, ?_⟩
  unfold providerConfigureConfig providerConfigureBeforeSts
  rw [hp]

/-! ## Lemmas: the blocks of `providerConfigure` taken by themselves -/

/-- The STS step, entered with a non-empty `RamRoleArn` and a successful
exchange, stores the triple of the exchange in the three credential fields. -/
theorem applySts_assume_role {Client : Type} (sdk : StsSDK Client) (config : Config)
    (region ak sk token : String) (harn : config.RamRoleArn ≠ "")
    (hsts : getAssumeRoleAK sdk config.AccessKey config.SecretKey config.SecurityToken
        region config.RamRoleArn config.RamRoleSessionName config.RamRolePolicy
        config.RamRoleSessionExpiration config.StsEndpoint = Except.ok (ak, sk, token)) :
    applySts sdk config region =
      Except.ok { config with AccessKey := ak, SecretKey := sk, SecurityToken := token } := by
  unfold applySts
  rw [if_pos harn, hsts]

/-- The `assume_role` block, entered with a `session_expiration` of 0 and no
environment override, sets the session expiration to 3600 when the value
carried in is 0 and keeps a non-zero value carried in. -/
theorem assumeRoleBlock_expiration_unset (env : HostEnv) (ar : AssumeRole)
    (config : Config) (h0 : ar.session_expiration = 0)
    (henv : env.Getenv "apsarastack_ASSUME_ROLE_SESSION_EXPIRATION" = "") :
    (assumeRoleBlock env ar config).RamRoleSessionExpiration =
      if config.RamRoleSessionExpiration = 0 then 3600
      else config.RamRoleSessionExpiration := by
  unfold assumeRoleBlock
  simp only [h0, henv, if_true, ne_eq, not_true_eq_false, if_false]


/-! ## Lemmas: the default `ConfigurationSource` label -/

theorem digitChar_ne_dash (n : Nat) : Nat.digitChar (n % 16) ≠ '-' := by
  have h : n % 16 < 16 := Nat.mod_lt _ (by decide)
  generalize n % 16 = m at h
  interval_cases m <;> decide

theorem trim_noop (p : Char → Bool) (a z : Char) (x y L : List Char)
    (h1 : L = a :: x) (h2 : L = y ++ [z]) (ha : p a = false) (hz : p z = false) :
    ((L.dropWhile p).reverse.dropWhile p).reverse = L := by
  have e1 : L.dropWhile p = L := by
    rw [h1]
    simp [List.dropWhile, ha]
  have e2 : L.reverse = z :: y.reverse := by
    rw [h2]
    simp
  have e3 : (z :: y.reverse).dropWhile p = z :: y.reverse := by
    simp [List.dropWhile, hz]
  rw [e1, e2, e3, ← e2, List.reverse_reverse]

theorem hexEncode_cons (b : Nat) (bs : List Nat) :
    hexEncode (b :: bs) =
      Nat.digitChar (b / 16 % 16) :: Nat.digitChar (b % 16) :: hexEncode bs := by
  simp [hexEncode]

theorem hexEncode_concat (bs : List Nat) (b : Nat) :
    hexEncode (bs ++ [b]) =
      (hexEncode bs ++ [Nat.digitChar (b / 16 % 16)]) ++ [Nat.digitChar (b % 16)] := by
  simp [hexEncode]

theorem UUID_String_trim (u : UUID) : stringsTrim u.String "-" = u.String := by
  obtain ⟨bytes, hsize, hrange⟩ := u
  have hp : ∀ n, (fun c => "-".toList.contains c) (Nat.digitChar (n % 16)) = false := by
    intro n
    have := digitChar_ne_dash n
    simp [this]
  obtain ⟨b0, t, hbytes⟩ : ∃ b0 t, bytes = b0 :: t := by
    cases bytes with
    | nil => simp at hsize
    | cons b0 t => exact ⟨b0, t, rfl⟩
  obtain ⟨init, z, hlast⟩ : ∃ init z, bytes.drop 10 = init ++ [z] := by
    rcases List.eq_nil_or_concat (bytes.drop 10) with h | ⟨init, z, h⟩
    · have hl : (bytes.drop 10).length = 6 := by simp [hsize]
      rw [h] at hl
      simp at hl
    · exact ⟨init, z, by simpa using h⟩
  have htake : bytes.take 4 = b0 :: t.take 3 := by
    rw [hbytes]
    rfl
  unfold stringsTrim UUID.String
  simp only [String.toList]
  congr 1
  refine trim_noop _ (Nat.digitChar (b0 / 16 % 16)) (Nat.digitChar (z % 16)) ?x ?y _
    ?h1 ?h2 (hp _) (hp _)
  case h1 =>
    rw [htake, hexEncode_cons]
    simp only [List.cons_append]
    exact rfl
  case h2 =>
    rw [hlast, hexEncode_concat, ← List.append_assoc]
    exact rfl

theorem goBytes_length_eq_zero (s : String) : (goBytes s).length = 0 ↔ s = "" := by
  obtain ⟨l⟩ := s
  cases l with
  | nil => simp [goBytes]
  | cons c cs =>
    have hc : (String.utf8EncodeChar c).length ≠ 0 := by
      unfold String.utf8EncodeChar
      simp only
      split_ifs <;> simp
    constructor
    · intro h
      simp only [goBytes, String.toList, List.flatMap_cons, List.length_append] at h
      omega
    · intro h
      exact absurd h (by simp [String.ext_iff])

theorem defaultSourceName_eq_take (a : String) (u : UUID) :
    defaultSourceName a u = (goBytes ("Default/" ++ a ++ ":" ++ u.String)).take 64 := by
  unfold defaultSourceName
  rw [UUID_String_trim]
  simp only
  split_ifs with h
  · rfl
  · rw [List.take_of_length_le (by omega)]


/-- The `ConfigurationSource` block replaces an empty label by the first 64
bytes of the `Sprintf` text and keeps a non-empty one. -/
theorem sourceNameBlock_ConfigurationSource (u : UUID) (config : Config) :
    (sourceNameBlock u config).ConfigurationSource =
      if config.ConfigurationSource.length = 0 then
        (goBytes ("Default/" ++ config.AccessKey ++ ":" ++ u.String)).take 64
      else config.ConfigurationSource := by
  unfold sourceNameBlock
  split_ifs
  · exact defaultSourceName_eq_take _ _
  · rfl

/-! ## Theorems: profile records without a `mode` key -/

/-- C11: for every loaded profile record that has no `mode` key and for every
lookup key, `getConfigFromProfile` returns the nil value with a nil error and
leaves the record in place, whatever the record holds under that key; hence
the resolver `getProviderConfig`, given an empty explicit value, returns the
empty string for such a record. -/
theorem getConfigFromProfile_without_mode (env : HostEnv) (d : ProviderData)
    (key : String) (record : JObj) (hmode : record.lookup "mode" = none) :
    getConfigFromProfile env d key (some record) =
      Except.ok (Except.ok JVal.null, some record) ∧
    getProviderConfig env d "" key (some record) = Except.ok ("", some record) := by
  have hlook : profileLookup record key = Except.ok (Except.ok JVal.null) := by
    unfold profileLookup
    rw [hmode]
  have hget : getConfigFromProfile env d key (some record) =
      Except.ok (Except.ok JVal.null, some record) := by
    rw [getConfigFromProfile_loaded, hlook]
  refine ⟨hget, ?_⟩
  unfold getProviderConfig
  rw [if_pos rfl, hget]
  rfl


/-- Witness of C11: the record without `mode` holds `PROFILE_AK` under
`access_key_id`, and the lookup of that key gives nil and the resolver the
empty string. -/
theorem getConfigFromProfile_without_mode_witness :
    List.lookup "mode" sampleModelessProfile = none ∧
    List.lookup "access_key_id" sampleModelessProfile = some (JVal.string "PROFILE_AK") ∧
    getConfigFromProfile (sampleProfileEnv sampleModelessProfile) sampleEmptyData
        "access_key_id" (some sampleModelessProfile) =
      Except.ok (Except.ok JVal.null, some sampleModelessProfile) ∧
    getProviderConfig (sampleProfileEnv sampleModelessProfile) sampleEmptyData ""
        "access_key_id" (some sampleModelessProfile) =
      Except.ok ("", some sampleModelessProfile) :=
  ⟨rfl, rfl,
    getConfigFromProfile_without_mode (sampleProfileEnv sampleModelessProfile)
      sampleEmptyData "access_key_id" sampleModelessProfile rfl⟩

end Apsarastack
